import Mathlib

/-!
# Crescent exchange and bootstrap modules: parameters, queries, message server

A shallow embedding of

* `x/exchange/types/params.go` (module parameters and their validation),
* `x/exchange/keeper/grpc_query.go` (`Querier.BestSwapExactInRoutes`),
* `x/exchange/keeper/msg_server.go` (the five message handlers),
* `x/bootstrap/types/bootstrap.go` (`OrderStatus` predicates, `Order.Validate`,
  `BootstrapPool.Validate`),

followed by the properties established about them.

Conventions.  A Go `error` result is an `Option Error` (`none` is `nil`); a Go
`(T, error)` result is an `Except Error T`; a Go function that may `panic` returns
an `Outcome`.  `sdk.Int` is `Int`, `uint64` identifiers are `Nat` (no arithmetic is
done on them), and `sdk.Dec` is its raw integer, the value scaled by `10^18`.
-/

namespace Crescent

/-! ## Errors -/

/-- The gRPC status codes used by the query server (`google.golang.org/grpc/codes`). -/
inductive Codes where
  | InvalidArgument
  | NotFound
  | Internal
  deriving DecidableEq, Repr

/-- Go error values as far as the embedded code builds and inspects them.
`ErrInsufficientOutput` is `types.ErrInsufficientOutput`, `ErrNotFound` and
`ErrInvalidRequest` are the `sdkerrors` sentinels, `status` is `status.Error`,
`wrap` is `sdkerrors.Wrap` or `fmt.Errorf` with a trailing `%w`, and `errorf` is
`fmt.Errorf` without `%w` (only the format string is kept, its operands are not
rendered). -/
inductive Error where
  | ErrInsufficientOutput : Error
  | ErrNotFound : Error
  | ErrInvalidRequest : Error
  | status (code : Codes) (msg : String) : Error
  | wrap (inner : Error) (description : String) : Error
  | errorf (format : String) : Error
  deriving DecidableEq, Repr

/-- Go `errors.Is err target`: `err` is `target`, or wraps an error that is. -/
def errorsIs : Error → Error → Bool
  | Error.wrap inner description, target =>
      (Error.wrap inner description == target) || errorsIs inner target
  | err, target => err == target

/-! ## `sdk.Dec`, `sdk.Coin`, `sdk.Coins` -/

/-- The number of fractional digits of `sdk.Dec` (`sdk.Precision`). -/
def Precision : Nat := 18

/-- An `sdk.Dec`: a fixed-point decimal stored as the integer `raw = value * 10^18`. -/
structure Dec where
  raw : Int
  deriving DecidableEq, Repr

namespace Dec

/-- The rational number a decimal stands for. -/
def toRat (d : Dec) : ℚ := (d.raw : ℚ) / (10 : ℚ) ^ Precision

/-- Go `sdk.NewDecWithPrec i prec`, defined for `prec ≤ 18` (Go panics otherwise). -/
def NewDecWithPrec (i : Int) (prec : Nat) (_h : prec ≤ Precision) : Dec :=
  ⟨i * 10 ^ (Precision - prec)⟩

/-- Go `sdk.OneDec()`. -/
def OneDec : Dec := ⟨10 ^ Precision⟩

/-- Go `Dec.Neg`. -/
def Neg (d : Dec) : Dec := ⟨-d.raw⟩

/-- Go `Dec.GT`. -/
def GT (a b : Dec) : Bool := decide (b.raw < a.raw)

/-- Go `Dec.LT`. -/
def LT (a b : Dec) : Bool := decide (a.raw < b.raw)

/-- Go `Dec.IsNegative`. -/
def IsNegative (d : Dec) : Bool := decide (d.raw < 0)

end Dec

/-- An `sdk.Coin`. -/
structure Coin where
  denom : String
  amount : Int
  deriving DecidableEq, Repr

/-- An `sdk.Coins`. -/
abbrev Coins := List Coin

/-- Go `sdk.NewCoins()` without arguments: the empty coin set. -/
def NewCoins : Coins := []

/-- The characters cosmos-sdk 0.45 allows after the first one of a denomination. -/
def isDenomChar (c : Char) : Bool :=
  c.isAlphanum || c == '/' || c == '-'

/-- The cosmos-sdk `sdk.ValidateDenom` (an external dependency of the repository, at
the version 0.45 the module is built with): a denomination is a letter followed by
2 to 127 characters out of letters, digits, `/` and `-`. -/
def ValidateDenom (denom : String) : Option Error :=
  match denom.toList with
  | [] => some (Error.errorf "invalid denom: %s")
  | c :: cs =>
      if c.isAlpha && decide (2 ≤ cs.length) && decide (cs.length ≤ 127) && cs.all isDenomChar
      then none
      else some (Error.errorf "invalid denom: %s")

/-- Go `Coin.IsPositive`. -/
def Coin.IsPositive (c : Coin) : Bool := decide (0 < c.amount)

/-- The loop of cosmos-sdk `Coins.Validate` over `coins[1:]`, with the last
denomination seen and the set of denominations seen so far. -/
def Coins.validateRest : List Coin → String → List String → Option Error
  | [], _, _ => none
  | coin :: rest, lowDenom, seenDenoms =>
      if seenDenoms.contains coin.denom then
        some (Error.errorf "duplicate denomination %s")
      else
        match ValidateDenom coin.denom with
        | some err => some err
        | none =>
            if ¬ (lowDenom < coin.denom) then
              some (Error.errorf "denomination %s is not sorted")
            else if !coin.IsPositive then
              some (Error.errorf "coin %s amount is not positive")
            else
              Coins.validateRest rest coin.denom (coin.denom :: seenDenoms)

/-- The cosmos-sdk `Coins.Validate` (an external dependency of the repository):
the empty set is valid; otherwise every denomination is valid, every amount is
positive, and the denominations are strictly increasing without duplicates. -/
def Coins.Validate : Coins → Option Error
  | [] => none
  | coin :: rest =>
      match ValidateDenom coin.denom with
      | some err => some err
      | none =>
          if !coin.IsPositive then
            some (Error.errorf "coin %s amount is not positive")
          else
            Coins.validateRest rest coin.denom [coin.denom]

/-! ## `x/exchange/types/params.go` -/

/-- The exchange module parameters. -/
structure Params where
  MarketCreationFee : Coins
  DefaultMakerFeeRate : Dec
  DefaultTakerFeeRate : Dec
  deriving DecidableEq, Repr

/-- Go `DefaultMarketCreationFee`. -/
def DefaultMarketCreationFee : Coins := NewCoins

/-- Go `DefaultDefaultMakerFeeRate`, `sdk.NewDecWithPrec(-15, 4)`. -/
def DefaultDefaultMakerFeeRate : Dec := Dec.NewDecWithPrec (-15) 4 (by decide)

/-- Go `DefaultDefaultTakerFeeRate`, `sdk.NewDecWithPrec(3, 3)`. -/
def DefaultDefaultTakerFeeRate : Dec := Dec.NewDecWithPrec 3 3 (by decide)

/-- Go `DefaultParams`. -/
def DefaultParams : Params :=
  { MarketCreationFee := DefaultMarketCreationFee
    DefaultMakerFeeRate := DefaultDefaultMakerFeeRate
    DefaultTakerFeeRate := DefaultDefaultTakerFeeRate }

/-- The dynamic values the parameter validators receive as `interface{}`. -/
inductive ParamValue where
  | coins (v : Coins)
  | dec (v : Dec)
  deriving DecidableEq, Repr

/-- Go `validateMarketCreationFee`. -/
def validateMarketCreationFee : ParamValue → Option Error
  | ParamValue.coins v =>
      match Coins.Validate v with
      | some err => some (Error.wrap err "invalid market creation fee")
      | none => none
  | _ => some (Error.errorf "invalid parameter type: %T")

/-- Go `validateDefaultMakerFeeRate`. -/
def validateDefaultMakerFeeRate : ParamValue → Option Error
  | ParamValue.dec v =>
      if v.GT Dec.OneDec then
        some (Error.errorf "default maker fee rate must not be greater than 1.0: %s")
      else if v.LT Dec.OneDec.Neg then
        some (Error.errorf "default maker fee rate must not be less than -1.0: %s")
      else none
  | _ => some (Error.errorf "invalid parameter type: %T")

/-- Go `validateDefaultTakerFeeRate`. -/
def validateDefaultTakerFeeRate : ParamValue → Option Error
  | ParamValue.dec v =>
      if v.GT Dec.OneDec then
        some (Error.errorf "default taker fee rate must not be greater than 1.0: %s")
      else if v.IsNegative then
        some (Error.errorf "default taker fee rate must not be negative: %s")
      else none
  | _ => some (Error.errorf "invalid parameter type: %T")

/-- The loop of `Params.Validate` over its table of fields and validators: the
first error met is returned. -/
def validateFields : List (ParamValue × (ParamValue → Option Error)) → Option Error
  | [] => none
  | (val, validateFunc) :: rest =>
      match validateFunc val with
      | some err => some err
      | none => validateFields rest

/-- Go `Params.Validate`. -/
def Params.Validate (params : Params) : Option Error :=
  match validateFields
      [ (ParamValue.coins params.MarketCreationFee, validateMarketCreationFee),
        (ParamValue.dec params.DefaultMakerFeeRate, validateDefaultMakerFeeRate),
        (ParamValue.dec params.DefaultTakerFeeRate, validateDefaultTakerFeeRate) ] with
  | some err => some err
  | none =>
      if params.DefaultMakerFeeRate.IsNegative &&
          params.DefaultMakerFeeRate.Neg.GT params.DefaultTakerFeeRate then
        some (Error.errorf
          "negative default maker fee rate must not be greater than default taker fee rate")
      else none

/-! ## Results of Go functions that may panic -/

/-- What a call of a Go handler comes to: a `panic`, the pair `(nil, err)`, or the
pair `(resp, nil)`. -/
inductive Outcome (α : Type) where
  | panicked (err : Error) : Outcome α
  | failed (err : Error) : Outcome α
  | returned (resp : α) : Outcome α
  deriving DecidableEq, Repr

/-- The cosmos-sdk `Coin.Validate` (an external dependency of the repository): the
denomination is valid and the amount is not negative. -/
def Coin.Validate (c : Coin) : Option Error :=
  match ValidateDenom c.denom with
  | some err => some err
  | none => if c.amount < 0 then some (Error.errorf "negative coin amount: %v") else none

/-- The cosmos-sdk `sdk.NewCoin` (an external dependency of the repository): it
panics when the coin it builds is not valid. -/
def NewCoin (denom : String) (amount : Int) : Outcome Coin :=
  match Coin.Validate ⟨denom, amount⟩ with
  | some err => Outcome.panicked err
  | none => Outcome.returned ⟨denom, amount⟩

/-- An `sdk.AccAddress`: its bytes. -/
abbrev AccAddress := List Nat

/-- Go `sdk.MustAccAddressFromBech32`, over the decoder `sdk.AccAddressFromBech32`
(an external dependency, taken as `decode`): it panics when decoding fails. -/
def MustAccAddressFromBech32 (decode : String → Except Error AccAddress) (address : String) :
    Outcome AccAddress :=
  match decode address with
  | Except.error err => Outcome.panicked err
  | Except.ok addr => Outcome.returned addr

/-! ## The exchange keeper -/

/-- Modelled from the spec: the declaration of `types.Market` is generated code that
is not among the sources; these are the fields `NewMarketResponse` reads, the
immutable identity of a market in the spec. -/
structure Market where
  Id : Nat
  BaseDenom : String
  QuoteDenom : String
  EscrowAddress : String
  deriving DecidableEq, Repr

/-- Modelled from the spec: the declaration of `types.Order` is generated code that
is not among the sources; these are the attributes the spec gives an order, of which
the message server reads `Id` only. -/
structure Order where
  Id : Nat
  MarketId : Nat
  Orderer : String
  IsBuy : Bool
  Price : Dec
  Quantity : Int
  OpenQuantity : Int
  MsgHeight : Int
  Deposit : Int
  deriving DecidableEq, Repr

/-- The core operations of `Keeper` that the query and message servers call.  Their
bodies are not among the sources, so they are taken as they come, with the
signatures the callers and `app/testutil/exchange.go` use; `Ctx` is the ledger
state behind `sdk.Context`, which every state-changing operation hands back. -/
structure Keeper (Ctx : Type) where
  CreateMarket : Ctx → AccAddress → String → String → Except Error Market × Ctx
  PlaceLimitOrder :
    Ctx → Nat → AccAddress → Bool → Dec → Int → Except Error (Order × Int × Int) × Ctx
  PlaceMarketOrder : Ctx → Nat → AccAddress → Bool → Int → Except Error (Int × Int) × Ctx
  CancelOrder : Ctx → AccAddress → Nat → Except Error Order × Ctx
  SwapExactIn : Ctx → AccAddress → List Nat → Coin → Coin → Bool → Except Error Coin × Ctx
  FindAllRoutes : Ctx → String → String → List (List Nat)

/-! ## `x/exchange/keeper/grpc_query.go` -/

/-- Go `types.QueryBestSwapExactInRoutesRequest`. -/
structure QueryBestSwapExactInRoutesRequest where
  Input : Coin
  MinOutput : Coin
  deriving DecidableEq, Repr

/-- Go `types.QueryBestSwapExactInRoutesResponse`. -/
structure QueryBestSwapExactInRoutesResponse where
  Routes : List Nat
  Output : Coin
  deriving DecidableEq, Repr

/-- The candidate routes of a request: `k.FindAllRoutes(ctx, req.Input.Denom,
req.MinOutput.Denom)`. -/
def candidateRoutes {Ctx : Type} (k : Keeper Ctx) (ctx : Ctx)
    (req : QueryBestSwapExactInRoutesRequest) : List (List Nat) :=
  k.FindAllRoutes ctx req.Input.denom req.MinOutput.denom

/-- The simulated swap of a request along one route:
`k.SwapExactIn(ctx, sdk.AccAddress{}, routes, req.Input, req.MinOutput, true)`.
The query passes the same `ctx` to every call and keeps the output and the error. -/
def simulateSwap {Ctx : Type} (k : Keeper Ctx) (ctx : Ctx)
    (req : QueryBestSwapExactInRoutesRequest) (routes : List Nat) : Except Error Coin :=
  (k.SwapExactIn ctx [] routes req.Input req.MinOutput true).1

/-- The `for _, routes := range allRoutes` loop of `BestSwapExactInRoutes`, with the
current `bestOutput` and `bestRoutes`; `Except.error err` is `panic(err)`. -/
def bestSwapLoop (swap : List Nat → Except Error Coin) :
    List (List Nat) → Int → List Nat → Except Error (Int × List Nat)
  | [], bestOutput, bestRoutes => Except.ok (bestOutput, bestRoutes)
  | routes :: rest, bestOutput, bestRoutes =>
      match swap routes with
      | Except.error err =>
          if !errorsIs err Error.ErrInsufficientOutput then Except.error err
          else bestSwapLoop swap rest bestOutput bestRoutes
      | Except.ok output =>
          if output.amount > bestOutput then bestSwapLoop swap rest output.amount routes
          else bestSwapLoop swap rest bestOutput bestRoutes

/-- Go `utils.ZeroInt`. -/
def ZeroInt : Int := 0

/-- The error `sdkerrors.Wrap(sdkerrors.ErrNotFound, "no possible routes")`. -/
def errNoPossibleRoutes : Error := Error.wrap Error.ErrNotFound "no possible routes"

/-- Go `Querier.BestSwapExactInRoutes`. -/
def Querier.BestSwapExactInRoutes {Ctx : Type} (k : Keeper Ctx) (ctx : Ctx)
    (req : Option QueryBestSwapExactInRoutesRequest) :
    Outcome QueryBestSwapExactInRoutesResponse :=
  match req with
  | none => Outcome.failed (Error.status Codes.InvalidArgument "empty request")
  | some req =>
      let allRoutes := candidateRoutes k ctx req
      if allRoutes.length = 0 then
        Outcome.failed errNoPossibleRoutes
      else
        match bestSwapLoop (simulateSwap k ctx req) allRoutes ZeroInt [] with
        | Except.error err => Outcome.panicked err
        | Except.ok (bestOutput, bestRoutes) =>
            if bestOutput < req.MinOutput.amount then
              Outcome.failed errNoPossibleRoutes
            else
              match NewCoin req.MinOutput.denom bestOutput with
              | Outcome.panicked err => Outcome.panicked err
              | Outcome.failed err => Outcome.failed err
              | Outcome.returned output =>
                  Outcome.returned { Routes := bestRoutes, Output := output }

/-! ## `x/exchange/keeper/msg_server.go` -/

/-- Go `types.MsgCreateMarket`. -/
structure MsgCreateMarket where
  Sender : String
  BaseDenom : String
  QuoteDenom : String
  deriving DecidableEq, Repr

/-- Go `types.MsgCreateMarketResponse`. -/
structure MsgCreateMarketResponse where
  MarketId : Nat
  deriving DecidableEq, Repr

/-- Go `types.MsgPlaceLimitOrder`. -/
structure MsgPlaceLimitOrder where
  Sender : String
  MarketId : Nat
  IsBuy : Bool
  Price : Dec
  Quantity : Int
  deriving DecidableEq, Repr

/-- Go `types.MsgPlaceLimitOrderResponse`. -/
structure MsgPlaceLimitOrderResponse where
  Rested : Bool
  OrderId : Nat
  ExecutedQuantity : Int
  ExecutedQuote : Int
  deriving DecidableEq, Repr

/-- Go `types.MsgPlaceMarketOrder`. -/
structure MsgPlaceMarketOrder where
  Sender : String
  MarketId : Nat
  IsBuy : Bool
  Quantity : Int
  deriving DecidableEq, Repr

/-- Go `types.MsgPlaceMarketOrderResponse`. -/
structure MsgPlaceMarketOrderResponse where
  ExecutedQuantity : Int
  ExecutedQuote : Int
  deriving DecidableEq, Repr

/-- Go `types.MsgCancelOrder`. -/
structure MsgCancelOrder where
  Sender : String
  OrderId : Nat
  deriving DecidableEq, Repr

/-- Go `types.MsgCancelOrderResponse`. -/
structure MsgCancelOrderResponse where
  deriving DecidableEq, Repr

/-- Go `types.MsgSwapExactIn`. -/
structure MsgSwapExactIn where
  Sender : String
  Routes : List Nat
  Input : Coin
  MinOutput : Coin
  deriving DecidableEq, Repr

/-- Go `types.MsgSwapExactInResponse`. -/
structure MsgSwapExactInResponse where
  Output : Coin
  deriving DecidableEq, Repr

/-- Go `msgServer.CreateMarket`. -/
def msgServer.CreateMarket {Ctx : Type} (decode : String → Except Error AccAddress)
    (k : Keeper Ctx) (ctx : Ctx) (msg : MsgCreateMarket) :
    Outcome MsgCreateMarketResponse × Ctx :=
  match MustAccAddressFromBech32 decode msg.Sender with
  | Outcome.panicked err => (Outcome.panicked err, ctx)
  | Outcome.failed err => (Outcome.failed err, ctx)
  | Outcome.returned sender =>
      match k.CreateMarket ctx sender msg.BaseDenom msg.QuoteDenom with
      | (Except.error err, ctx1) => (Outcome.failed err, ctx1)
      | (Except.ok market, ctx1) => (Outcome.returned { MarketId := market.Id }, ctx1)

/-- Go `msgServer.PlaceLimitOrder`. -/
def msgServer.PlaceLimitOrder {Ctx : Type} (decode : String → Except Error AccAddress)
    (k : Keeper Ctx) (ctx : Ctx) (msg : MsgPlaceLimitOrder) :
    Outcome MsgPlaceLimitOrderResponse × Ctx :=
  match MustAccAddressFromBech32 decode msg.Sender with
  | Outcome.panicked err => (Outcome.panicked err, ctx)
  | Outcome.failed err => (Outcome.failed err, ctx)
  | Outcome.returned sender =>
      match k.PlaceLimitOrder ctx msg.MarketId sender msg.IsBuy msg.Price msg.Quantity with
      | (Except.error err, ctx1) => (Outcome.failed err, ctx1)
      | (Except.ok (order, execQty, execQuote), ctx1) =>
          (Outcome.returned
            { Rested := decide (order.Id > 0)
              OrderId := order.Id
              ExecutedQuantity := execQty
              ExecutedQuote := execQuote }, ctx1)

/-- Go `msgServer.PlaceMarketOrder`. -/
def msgServer.PlaceMarketOrder {Ctx : Type} (decode : String → Except Error AccAddress)
    (k : Keeper Ctx) (ctx : Ctx) (msg : MsgPlaceMarketOrder) :
    Outcome MsgPlaceMarketOrderResponse × Ctx :=
  match MustAccAddressFromBech32 decode msg.Sender with
  | Outcome.panicked err => (Outcome.panicked err, ctx)
  | Outcome.failed err => (Outcome.failed err, ctx)
  | Outcome.returned sender =>
      match k.PlaceMarketOrder ctx msg.MarketId sender msg.IsBuy msg.Quantity with
      | (Except.error err, ctx1) => (Outcome.failed err, ctx1)
      | (Except.ok (execQty, execQuote), ctx1) =>
          (Outcome.returned { ExecutedQuantity := execQty, ExecutedQuote := execQuote }, ctx1)

/-- Go `msgServer.CancelOrder`. -/
def msgServer.CancelOrder {Ctx : Type} (decode : String → Except Error AccAddress)
    (k : Keeper Ctx) (ctx : Ctx) (msg : MsgCancelOrder) :
    Outcome MsgCancelOrderResponse × Ctx :=
  match MustAccAddressFromBech32 decode msg.Sender with
  | Outcome.panicked err => (Outcome.panicked err, ctx)
  | Outcome.failed err => (Outcome.failed err, ctx)
  | Outcome.returned sender =>
      match k.CancelOrder ctx sender msg.OrderId with
      | (Except.error err, ctx1) => (Outcome.failed err, ctx1)
      | (Except.ok _, ctx1) => (Outcome.returned {}, ctx1)

/-- Go `msgServer.SwapExactIn`. -/
def msgServer.SwapExactIn {Ctx : Type} (decode : String → Except Error AccAddress)
    (k : Keeper Ctx) (ctx : Ctx) (msg : MsgSwapExactIn) :
    Outcome MsgSwapExactInResponse × Ctx :=
  match MustAccAddressFromBech32 decode msg.Sender with
  | Outcome.panicked err => (Outcome.panicked err, ctx)
  | Outcome.failed err => (Outcome.failed err, ctx)
  | Outcome.returned sender =>
      match k.SwapExactIn ctx sender msg.Routes msg.Input msg.MinOutput false with
      | (Except.error err, ctx1) => (Outcome.failed err, ctx1)
      | (Except.ok output, ctx1) => (Outcome.returned { Output := output }, ctx1)

/-! ## `x/bootstrap/types/bootstrap.go` -/

/-- The bootstrap module's `OrderStatus`, a protobuf enumeration whose declaration is
generated code that is not among the sources: the six constants `bootstrap.go`
names, and `other` for every remaining `int32` value. -/
inductive OrderStatus where
  | OrderStatusNotExecuted
  | OrderStatusNotMatched
  | OrderStatusPartiallyMatched
  | OrderStatusCompleted
  | OrderStatusCanceled
  | OrderStatusExpired
  | other (value : Int)
  deriving DecidableEq, Repr

/-- Go `OrderStatus.IsValid`. -/
def OrderStatus.IsValid (x : OrderStatus) : Bool :=
  match x with
  | OrderStatusNotExecuted | OrderStatusNotMatched | OrderStatusPartiallyMatched
  | OrderStatusCompleted | OrderStatusExpired => true
  | _ => false

/-- Go `OrderStatus.IsMatchable`. -/
def OrderStatus.IsMatchable (x : OrderStatus) : Bool :=
  match x with
  | OrderStatusNotExecuted | OrderStatusNotMatched | OrderStatusPartiallyMatched => true
  | _ => false

/-- Go `OrderStatus.CanBeExpired`. -/
def OrderStatus.CanBeExpired (x : OrderStatus) : Bool := x.IsMatchable

/-- The statuses the comment above `OrderStatus.IsValid` lists as valid. -/
def OrderStatus.listedAsValid : List OrderStatus :=
  [ OrderStatusNotExecuted, OrderStatusNotMatched, OrderStatusPartiallyMatched,
    OrderStatusCompleted, OrderStatusCanceled, OrderStatusExpired ]

/-! ## Derived notions and example keepers -/

/-- The output amounts of the candidates whose simulated swap succeeds, in the
order of the candidates. -/
def successAmounts (swap : List Nat → Except Error Coin) (allRoutes : List (List Nat)) :
    List Int :=
  allRoutes.filterMap fun routes =>
    match swap routes with
    | Except.ok output => some output.amount
    | Except.error _ => none

/-- The largest successful simulated output, taken as 0 when no candidate
succeeds. -/
def largestSuccessfulOutput (swap : List Nat → Except Error Coin)
    (allRoutes : List (List Nat)) : Int :=
  match successAmounts swap allRoutes with
  | [] => 0
  | amount :: amounts => amounts.foldl max amount

/-- An address decoder for examples: only `cre1alice` decodes. -/
def exampleDecode (address : String) : Except Error AccAddress :=
  if address = "cre1alice" then Except.ok [1, 2, 3]
  else Except.error (Error.errorf "decoding bech32 failed")

/-- A keeper for examples: a single candidate route `[1]` through a market without
liquidity, so that every swap succeeds with output 0. -/
def zeroOutputKeeper : Keeper Unit :=
  { CreateMarket := fun ctx _ _ _ => (Except.error Error.ErrInvalidRequest, ctx)
    PlaceLimitOrder := fun ctx _ _ _ _ _ => (Except.error Error.ErrNotFound, ctx)
    PlaceMarketOrder := fun ctx _ _ _ _ => (Except.ok (0, 0), ctx)
    CancelOrder := fun ctx _ _ => (Except.error Error.ErrNotFound, ctx)
    SwapExactIn := fun ctx _ _ _ minOutput _ => (Except.ok ⟨minOutput.denom, 0⟩, ctx)
    FindAllRoutes := fun _ _ _ => [[1]] }

/-- A keeper for examples: the candidate routes `[2]` and `[1]`, in this order, both
swapping to 10; a limit order rests under id 7 after executing 40 for 60. -/
def tiedKeeper : Keeper Unit :=
  { CreateMarket := fun ctx _ baseDenom quoteDenom =>
      if baseDenom = quoteDenom then (Except.error Error.ErrInvalidRequest, ctx)
      else (Except.ok ⟨1, baseDenom, quoteDenom, "cre1escrow"⟩, ctx)
    PlaceLimitOrder := fun ctx marketId _ isBuy price qty =>
      (Except.ok (⟨7, marketId, "cre1alice", isBuy, price, qty, qty - 40, 1, 0⟩, 40, 60), ctx)
    PlaceMarketOrder := fun ctx _ _ _ _ => (Except.ok (0, 0), ctx)
    CancelOrder := fun ctx _ _ => (Except.error Error.ErrNotFound, ctx)
    SwapExactIn := fun ctx _ _ _ minOutput _ => (Except.ok ⟨minOutput.denom, 10⟩, ctx)
    FindAllRoutes := fun _ _ _ => [[2], [1]] }

/-- A keeper for examples: a single candidate route `[1]`, whose swap fails with
`ErrInsufficientOutput`. -/
def insufficientKeeper : Keeper Unit :=
  { CreateMarket := fun ctx _ _ _ => (Except.error Error.ErrInvalidRequest, ctx)
    PlaceLimitOrder := fun ctx _ _ _ _ _ => (Except.error Error.ErrNotFound, ctx)
    PlaceMarketOrder := fun ctx _ _ _ _ => (Except.ok (0, 0), ctx)
    CancelOrder := fun ctx _ _ => (Except.error Error.ErrNotFound, ctx)
    SwapExactIn := fun ctx _ _ _ _ _ =>
      (Except.error (Error.wrap Error.ErrInsufficientOutput "no liquidity"), ctx)
    FindAllRoutes := fun _ _ _ => [[1]] }

/-- A keeper for examples: the candidate routes `[1]`, whose swap fails with
`ErrInsufficientOutput`, and `[2]`, whose swap fails with another error. -/
def fatalKeeper : Keeper Unit :=
  { CreateMarket := fun ctx _ _ _ => (Except.error Error.ErrInvalidRequest, ctx)
    PlaceLimitOrder := fun ctx _ _ _ _ _ => (Except.error Error.ErrNotFound, ctx)
    PlaceMarketOrder := fun ctx _ _ _ _ => (Except.ok (0, 0), ctx)
    CancelOrder := fun ctx _ _ => (Except.error Error.ErrNotFound, ctx)
    SwapExactIn := fun ctx _ routes _ _ _ =>
      if routes = [1] then
        (Except.error (Error.wrap Error.ErrInsufficientOutput "no liquidity"), ctx)
      else (Except.error (Error.errorf "market not found"), ctx)
    FindAllRoutes := fun _ _ _ => [[1], [2]] }

/-- A keeper for examples: the empty route as the single candidate, whose swap fails
with `ErrInsufficientOutput`. -/
def emptyRouteKeeper : Keeper Unit :=
  { CreateMarket := fun ctx _ _ _ => (Except.error Error.ErrInvalidRequest, ctx)
    PlaceLimitOrder := fun ctx _ _ _ _ _ => (Except.error Error.ErrNotFound, ctx)
    PlaceMarketOrder := fun ctx _ _ _ _ => (Except.ok (0, 0), ctx)
    CancelOrder := fun ctx _ _ => (Except.error Error.ErrNotFound, ctx)
    SwapExactIn := fun ctx _ _ _ _ _ =>
      (Except.error (Error.wrap Error.ErrInsufficientOutput "no liquidity"), ctx)
    FindAllRoutes := fun _ _ _ => [[]] }

/-- A keeper for examples: a single candidate route `[1]`, whose swap succeeds with
the amount -5. -/
def negativeKeeper : Keeper Unit :=
  { CreateMarket := fun ctx _ _ _ => (Except.error Error.ErrInvalidRequest, ctx)
    PlaceLimitOrder := fun ctx _ _ _ _ _ => (Except.error Error.ErrNotFound, ctx)
    PlaceMarketOrder := fun ctx _ _ _ _ => (Except.ok (0, 0), ctx)
    CancelOrder := fun ctx _ _ => (Except.error Error.ErrNotFound, ctx)
    SwapExactIn := fun ctx _ _ _ minOutput _ => (Except.ok ⟨minOutput.denom, -5⟩, ctx)
    FindAllRoutes := fun _ _ _ => [[1]] }

/-- A request for examples: swap 10 `uatom` for at least 9 of `x`, which is not a
valid denomination. -/
def invalidDenomRequest : QueryBestSwapExactInRoutesRequest :=
  { Input := ⟨"uatom", 10⟩, MinOutput := ⟨"x", 9⟩ }

/-- A request for examples: swap 10 `uatom` for at least -3 `uusdc`. -/
def negativeMinRequest : QueryBestSwapExactInRoutesRequest :=
  { Input := ⟨"uatom", 10⟩, MinOutput := ⟨"uusdc", -3⟩ }

/-- A request for examples: swap 10 `uatom` for at least 0 `uusdc`. -/
def zeroMinRequest : QueryBestSwapExactInRoutesRequest :=
  { Input := ⟨"uatom", 10⟩, MinOutput := ⟨"uusdc", 0⟩ }

/-- A request for examples: swap 10 `uatom` for at least 9 `uusdc`. -/
def nineMinRequest : QueryBestSwapExactInRoutesRequest :=
  { Input := ⟨"uatom", 10⟩, MinOutput := ⟨"uusdc", 9⟩ }

/-! ## The price bounds of `x/exchange/types/params.go` -/

/-- Go `sdk.NewIntWithDecimal n dec`, the integer `n * 10^dec`. -/
def NewIntWithDecimal (n : Int) (dec : Nat) : Int := n * 10 ^ dec

/-- Go `sdk.NewDecFromInt`: the decimal with the value of an integer. -/
def Dec.NewDecFromInt (i : Int) : Dec := ⟨i * 10 ^ Precision⟩

/-- Go `Dec.IsPositive`. -/
def Dec.IsPositive (d : Dec) : Bool := decide (0 < d.raw)

/-- Go `Dec.LTE`. -/
def Dec.LTE (a b : Dec) : Bool := decide (a.raw ≤ b.raw)

/-- Go `MinPrice`, `sdk.NewDecWithPrec(1, 14)`. -/
def MinPrice : Dec := Dec.NewDecWithPrec 1 14 (by decide)

/-- Go `MaxPrice`, `sdk.NewDecFromInt(sdk.NewIntWithDecimal(1, 40))`. -/
def MaxPrice : Dec := Dec.NewDecFromInt (NewIntWithDecimal 1 40)

/-- Go `Coin.IsZero`. -/
def Coin.IsZero (c : Coin) : Bool := decide (c.amount = 0)

/-! ## Orders and pools of `x/bootstrap/types/bootstrap.go` -/

namespace Bootstrap

/-- Go `time.Time` as an instant: the nanoseconds since the epoch. -/
structure Time where
  nanos : Int
  deriving DecidableEq, Repr

/-- The least `time.Duration`, an `int64` of nanoseconds. -/
def minDuration : Int := -(2 ^ 63)

/-- The greatest `time.Duration`. -/
def maxDuration : Int := 2 ^ 63 - 1

/-- Go `Time.After`. -/
def Time.After (t u : Time) : Bool := decide (u.nanos < t.nanos)

/-- Go `Time.Sub`: the duration `t - u`, or the least or greatest duration when the
difference does not fit one. -/
def Time.Sub (t u : Time) : Int :=
  if t.nanos - u.nanos < minDuration then minDuration
  else if maxDuration < t.nanos - u.nanos then maxDuration
  else t.nanos - u.nanos

/-- Go `Stage`. -/
structure Stage where
  StartTime : Time
  EndTime : Time
  deriving DecidableEq, Repr

/-- The bootstrap module's `OrderDirection`, a protobuf enumeration whose declaration
is generated code that is not among the sources: the two constants `bootstrap.go`
names, and `other` for every remaining `int32` value. -/
inductive OrderDirection where
  | OrderDirectionBuy
  | OrderDirectionSell
  | other (value : Int)
  deriving DecidableEq, Repr

/-- The bootstrap module's `Order`, with the fields the constructors
`NewOrderForInitialOrder` and `NewOrderForLimitOrder` set. -/
structure Order where
  Id : Nat
  BootstrapPoolId : Nat
  MsgHeight : Int
  Orderer : String
  Direction : OrderDirection
  OfferCoin : Coin
  RemainingOfferCoin : Coin
  ReceivedCoin : Coin
  Price : Dec
  Status : OrderStatus
  AssociateStage : Nat
  deriving DecidableEq, Repr

/-- Go `Order.Validate`, over the decoder `sdk.AccAddressFromBech32` (an external
dependency, taken as `decode`). -/
def Order.Validate (decode : String → Except Error AccAddress) (m : Order) : Option Error :=
  if m.Id = 0 then some (Error.errorf "id must not be 0")
  else if m.BootstrapPoolId = 0 then some (Error.errorf "pool id must not be 0")
  else if m.MsgHeight = 0 then some (Error.errorf "message height must not be 0")
  else
    match decode m.Orderer with
    | Except.error err => some (Error.wrap err "invalid orderer address %s")
    | Except.ok _ =>
        if m.Direction ≠ OrderDirection.OrderDirectionBuy ∧
            m.Direction ≠ OrderDirection.OrderDirectionSell then
          some (Error.errorf "invalid direction: %s")
        else
          match m.OfferCoin.Validate with
          | some err => some (Error.wrap err "invalid offer coin %s")
          | none =>
              if m.OfferCoin.IsZero then some (Error.errorf "offer coin must not be 0")
              else
                match m.RemainingOfferCoin.Validate with
                | some err => some (Error.wrap err "invalid remaining offer coin %s")
                | none =>
                    if m.OfferCoin.denom ≠ m.RemainingOfferCoin.denom then
                      some (Error.errorf
                        "offer coin denom %s != remaining offer coin denom %s")
                    else
                      match m.ReceivedCoin.Validate with
                      | some err => some (Error.wrap err "invalid received coin %s")
                      | none =>
                          if !m.Price.IsPositive then
                            some (Error.errorf "price must be positive: %s")
                          else if !m.Status.IsValid then
                            some (Error.errorf "invalid status: %s")
                          else none

/-- Go `BootstrapPool`; the optional prices are the `*sdk.Dec` fields, `none` for
`nil`. -/
structure BootstrapPool where
  Id : Nat
  BaseCoinDenom : String
  QuoteCoinDenom : String
  PairId : Nat
  MinPrice : Option Dec
  MaxPrice : Option Dec
  Stages : List Stage
  ProposerAddress : String
  EscrowAddress : String
  FeeCollectorAddress : String
  CreationFeeRate : Dec
  ProtocolFeeRate : Dec
  InitialTradingFeeRate : Dec
  TradingFeeRate : Dec
  deriving DecidableEq, Repr

/-- The four constants `BootstrapPool.Validate` compares with, whose declarations are
not among the sources: two `uint32` stage counts and two `time.Duration`s. -/
structure StageLimits where
  MinNumOfStages : Nat
  MaxNumOfStages : Nat
  MinStageDuration : Int
  MaxStageDuration : Int
  deriving DecidableEq, Repr

/-- The signature of `utils.DateRangesOverlap(startTimeA, endTimeA, startTimeB,
endTimeB)`, whose body is not among the sources. -/
abbrev DateRangesOverlapFn := Time → Time → Time → Time → Bool

/-- The inner loop of `BootstrapPool.Validate`, `for _, so := range m.Stages[i+1:]`:
the stage `s` against each later stage. -/
def overlapLoop (DateRangesOverlap : DateRangesOverlapFn) (s : Stage) :
    List Stage → Option Error
  | [] => none
  | so :: rest =>
      if DateRangesOverlap s.StartTime s.EndTime so.StartTime so.EndTime then
        some (Error.errorf "stage periods cannot be overlapped %s ~ %s with %s ~ %s")
      else overlapLoop DateRangesOverlap s rest

/-- The outer loop of `BootstrapPool.Validate`, `for i, s := range m.Stages`, on the
stages from index `i` on. -/
def stagesLoop (limits : StageLimits) (DateRangesOverlap : DateRangesOverlapFn) :
    List Stage → Option Error
  | [] => none
  | s :: rest =>
      if s.EndTime.Sub s.StartTime < limits.MinStageDuration ∨
          s.EndTime.Sub s.StartTime > limits.MaxStageDuration then
        some (Error.errorf
          "stage duration %d must be greater than MinStageDuration %s and lesser than MaxStageDuration %s")
      else if !s.EndTime.After s.StartTime then
        some (Error.errorf "stage end time %s must be greater than start time %s")
      else
        match overlapLoop DateRangesOverlap s rest with
        | some err => some err
        | none => stagesLoop limits DateRangesOverlap rest

/-- The local `numOfStages := uint32(len(m.Stages))` of `BootstrapPool.Validate`. -/
def BootstrapPool.numOfStages (m : BootstrapPool) : Nat := m.Stages.length % 2 ^ 32

/-- The check of the three addresses and the two denominations at the start of
`BootstrapPool.Validate`: the first error met, unwrapped. -/
def BootstrapPool.validateAddressesAndDenoms (decode : String → Except Error AccAddress)
    (m : BootstrapPool) : Option Error :=
  match decode m.ProposerAddress with
  | Except.error err => some err
  | Except.ok _ =>
      match decode m.EscrowAddress with
      | Except.error err => some err
      | Except.ok _ =>
          match decode m.FeeCollectorAddress with
          | Except.error err => some err
          | Except.ok _ =>
              match ValidateDenom m.BaseCoinDenom with
              | some err => some err
              | none => ValidateDenom m.QuoteCoinDenom

/-- The check of the optional prices in `BootstrapPool.Validate`. -/
def BootstrapPool.validatePrices (m : BootstrapPool) : Option Error :=
  if m.MinPrice.any (fun p => !p.IsPositive) then
    some (Error.wrap Error.ErrInvalidRequest "min price should be positive")
  else if m.MaxPrice.any (fun p => !p.IsPositive) then
    some (Error.wrap Error.ErrInvalidRequest "max price should be positive")
  else if m.MinPrice.any (fun lo => m.MaxPrice.any (fun hi => hi.LTE lo)) then
    some (Error.wrap Error.ErrInvalidRequest "max price should be greater than min price")
  else none

/-- The check of the four fee rates at the end of `BootstrapPool.Validate`. -/
def BootstrapPool.validateFeeRates (m : BootstrapPool) : Option Error :=
  if m.CreationFeeRate.IsNegative then
    some (Error.errorf "creation fee rate must not be negative: %s")
  else if m.ProtocolFeeRate.IsNegative then
    some (Error.errorf "protocol fee rate must not be negative: %s")
  else if m.InitialTradingFeeRate.IsNegative then
    some (Error.errorf "initial trading fee rate must not be negative: %s")
  else if m.TradingFeeRate.IsNegative then
    some (Error.errorf "trading fee rate must not be negative: %s")
  else none

/-- Go `BootstrapPool.Validate`, over the decoder `sdk.AccAddressFromBech32`, the
four constants and `utils.DateRangesOverlap`: addresses, denominations, prices, pair
id, stages, fee rates, in this order, the first error being returned. -/
def BootstrapPool.Validate (decode : String → Except Error AccAddress)
    (limits : StageLimits) (DateRangesOverlap : DateRangesOverlapFn) (m : BootstrapPool) :
    Option Error :=
  match m.validateAddressesAndDenoms decode with
  | some err => some err
  | none =>
      match m.validatePrices with
      | some err => some err
      | none =>
          if m.PairId = 0 then some (Error.wrap Error.ErrInvalidRequest "invalid pair id")
          else if m.numOfStages < limits.MinNumOfStages ∨
              m.numOfStages > limits.MaxNumOfStages then
            some (Error.errorf
              "num of stages %d must be greater than MinNumOfStages %s and lesser than MaxNumOfStages %s")
          else
            match stagesLoop limits DateRangesOverlap m.Stages with
            | some err => some err
            | none => m.validateFeeRates

/-- An order for examples: a buy of `cre1alice` offering 100 `uusd`, not executed. -/
def exampleOrder : Order :=
  { Id := 1, BootstrapPoolId := 1, MsgHeight := 5, Orderer := "cre1alice"
    Direction := OrderDirection.OrderDirectionBuy
    OfferCoin := ⟨"uusd", 100⟩, RemainingOfferCoin := ⟨"uusd", 100⟩
    ReceivedCoin := ⟨"uatom", 0⟩, Price := ⟨1500000000000000000⟩
    Status := OrderStatus.OrderStatusNotExecuted, AssociateStage := 0 }

/-- The order `exampleOrder` after its cancellation. -/
def canceledOrder : Order :=
  { exampleOrder with Status := OrderStatus.OrderStatusCanceled }

/-- Stage limits for examples: 1 to 5 stages of one hour to thirty days. -/
def exampleLimits : StageLimits :=
  { MinNumOfStages := 1, MaxNumOfStages := 5
    MinStageDuration := 3600000000000, MaxStageDuration := 2592000000000000 }

/-- An overlap test for examples: each range ends after the start of the other. -/
def exampleDateRangesOverlap : DateRangesOverlapFn :=
  fun startTimeA endTimeA startTimeB endTimeB =>
    endTimeA.After startTimeB && endTimeB.After startTimeA

/-- A pool for examples: two consecutive stages of one day each, both prices set. -/
def examplePool : BootstrapPool :=
  { Id := 1, BaseCoinDenom := "uatom", QuoteCoinDenom := "uusd", PairId := 1
    MinPrice := some ⟨500000000000000000⟩, MaxPrice := some ⟨2000000000000000000⟩
    Stages := [⟨⟨0⟩, ⟨86400000000000⟩⟩, ⟨⟨86400000000000⟩, ⟨172800000000000⟩⟩]
    ProposerAddress := "cre1alice", EscrowAddress := "cre1alice"
    FeeCollectorAddress := "cre1alice"
    CreationFeeRate := ⟨0⟩, ProtocolFeeRate := ⟨0⟩
    InitialTradingFeeRate := ⟨3000000000000000⟩, TradingFeeRate := ⟨3000000000000000⟩ }

end Bootstrap

/-! ## Decimals as rational numbers -/

theorem Dec.toRat_eq (d : Dec) : d.toRat = (d.raw : ℚ) / 1000000000000000000 := by
  unfold Dec.toRat Precision
  norm_num

theorem Dec.toRat_le_iff (a b : Dec) : a.toRat ≤ b.toRat ↔ a.raw ≤ b.raw := by
  rw [Dec.toRat_eq, Dec.toRat_eq, div_le_div_iff_of_pos_right (by norm_num)]
  exact Int.cast_le

theorem Dec.toRat_le_one_iff (d : Dec) : d.toRat ≤ 1 ↔ d.raw ≤ 10 ^ 18 := by
  rw [Dec.toRat_eq, div_le_iff₀ (by norm_num)]
  constructor
  · intro h
    have h2 : (d.raw : ℚ) ≤ ((10 ^ 18 : Int) : ℚ) := by push_cast; linarith
    exact Int.cast_le.mp h2
  · intro h
    have h2 : (d.raw : ℚ) ≤ ((10 ^ 18 : Int) : ℚ) := Int.cast_le.mpr h
    push_cast at h2; linarith

theorem Dec.neg_one_le_toRat_iff (d : Dec) : -1 ≤ d.toRat ↔ -(10 ^ 18) ≤ d.raw := by
  rw [Dec.toRat_eq, le_div_iff₀ (by norm_num)]
  constructor
  · intro h
    have h2 : ((-(10 ^ 18) : Int) : ℚ) ≤ (d.raw : ℚ) := by push_cast; linarith
    exact Int.cast_le.mp h2
  · intro h
    have h2 : ((-(10 ^ 18) : Int) : ℚ) ≤ (d.raw : ℚ) := Int.cast_le.mpr h
    push_cast at h2; linarith

theorem Dec.zero_le_toRat_iff (d : Dec) : 0 ≤ d.toRat ↔ 0 ≤ d.raw := by
  rw [Dec.toRat_eq, le_div_iff₀ (by norm_num)]
  simp

theorem Dec.neg_toRat_le_iff (a b : Dec) : -a.toRat ≤ b.toRat ↔ -a.raw ≤ b.raw := by
  have h := Dec.toRat_le_iff a.Neg b
  have e : a.Neg.toRat = -a.toRat := by
    rw [Dec.toRat_eq, Dec.toRat_eq]; simp [Dec.Neg]; ring
  rw [e] at h
  simpa [Dec.Neg] using h

/-! ## Parameter validation -/

/-- With a valid market creation fee, `Params.Validate` accepts exactly when the raw
integers of the two rates satisfy the five bounds. -/
theorem Params.Validate_eq_none_iff_raw (params : Params)
    (hfee : Coins.Validate params.MarketCreationFee = none) :
    params.Validate = none ↔
      (-(10 ^ 18) ≤ params.DefaultMakerFeeRate.raw ∧ params.DefaultMakerFeeRate.raw ≤ 10 ^ 18 ∧
        0 ≤ params.DefaultTakerFeeRate.raw ∧ params.DefaultTakerFeeRate.raw ≤ 10 ^ 18 ∧
        -params.DefaultMakerFeeRate.raw ≤ params.DefaultTakerFeeRate.raw) := by
  obtain ⟨fee, ⟨m⟩, ⟨t⟩⟩ := params
  simp only at hfee
  simp only [Params.Validate, validateFields, validateMarketCreationFee, hfee,
    validateDefaultMakerFeeRate, validateDefaultTakerFeeRate, Dec.GT, Dec.LT, Dec.IsNegative,
    Dec.OneDec, Dec.Neg, Precision]
  norm_num only
  split_ifs <;>
    simp only [decide_eq_true_eq, Bool.and_eq_true, not_lt, not_and] at * <;>
    simp <;> omega

/-- C1. For every `Params` whose market creation fee is a valid coin set,
`Params.Validate` returns no error if and only if the maker fee rate lies in
`[-1, 1]`, the taker fee rate lies in `[0, 1]` and the negated maker fee rate is at
most the taker fee rate; hence the two rates of accepted parameters sum to a
non-negative number. -/
theorem Params_Validate_accepts_iff (params : Params)
    (hfee : Coins.Validate params.MarketCreationFee = none) :
    (params.Validate = none ↔
      (-1 ≤ params.DefaultMakerFeeRate.toRat ∧ params.DefaultMakerFeeRate.toRat ≤ 1 ∧
        0 ≤ params.DefaultTakerFeeRate.toRat ∧ params.DefaultTakerFeeRate.toRat ≤ 1 ∧
        -params.DefaultMakerFeeRate.toRat ≤ params.DefaultTakerFeeRate.toRat)) ∧
    (params.Validate = none →
      0 ≤ params.DefaultMakerFeeRate.toRat + params.DefaultTakerFeeRate.toRat) := by
  have key := Params.Validate_eq_none_iff_raw params hfee
  rw [← Dec.neg_one_le_toRat_iff, ← Dec.toRat_le_one_iff, ← Dec.zero_le_toRat_iff,
    ← Dec.toRat_le_one_iff, ← Dec.neg_toRat_le_iff] at key
  refine ⟨key, fun h => ?_⟩
  have h5 := (key.mp h).2.2.2.2
  linarith

/-- The parameters with an empty fee, maker rate -1 and taker rate 1 satisfy the
hypothesis of `Params_Validate_accepts_iff` and are accepted. -/
theorem Params_Validate_accepts_iff_witness :
    Coins.Validate (Params.mk [] ⟨-10 ^ 18⟩ ⟨10 ^ 18⟩).MarketCreationFee = none ∧
    (Params.mk [] ⟨-10 ^ 18⟩ ⟨10 ^ 18⟩).Validate = none ∧
    0 ≤ (Params.mk [] ⟨-10 ^ 18⟩ ⟨10 ^ 18⟩).DefaultMakerFeeRate.toRat +
      (Params.mk [] ⟨-10 ^ 18⟩ ⟨10 ^ 18⟩).DefaultTakerFeeRate.toRat :=
  ⟨rfl, by decide,
    (Params_Validate_accepts_iff (Params.mk [] ⟨-10 ^ 18⟩ ⟨10 ^ 18⟩) rfl).2 (by decide)⟩

/-- C10. `DefaultParams` has an empty market creation fee, a maker fee rate of exactly
`-15/10000` and a taker fee rate of exactly `3/1000`, and `Params.Validate` accepts
it. -/
theorem DefaultParams_values_and_valid :
    DefaultParams.MarketCreationFee = [] ∧
    DefaultParams.DefaultMakerFeeRate.toRat = -15 / 10000 ∧
    DefaultParams.DefaultTakerFeeRate.toRat = 3 / 1000 ∧
    DefaultParams.Validate = none := by
  refine ⟨rfl, ?_, ?_, by decide⟩
  · rw [Dec.toRat_eq]
    simp only [DefaultParams, DefaultDefaultMakerFeeRate, Dec.NewDecWithPrec, Precision]
    norm_num
  · rw [Dec.toRat_eq]
    simp only [DefaultParams, DefaultDefaultTakerFeeRate, Dec.NewDecWithPrec, Precision]
    norm_num

/-! ## Order statuses of the bootstrap module -/

/-- C8. At the failing input: `OrderStatus.IsValid` rejects `OrderStatusCanceled`,
which the comment above it lists among the valid statuses, and accepts the five
other listed statuses. -/
theorem OrderStatus_IsValid_rejects_Canceled :
    OrderStatus.OrderStatusCanceled ∈ OrderStatus.listedAsValid ∧
    OrderStatus.IsValid OrderStatus.OrderStatusCanceled = false ∧
    (∀ x : OrderStatus, x.IsValid = true ↔
      (x ∈ OrderStatus.listedAsValid ∧ x ≠ OrderStatus.OrderStatusCanceled)) := by
  refine ⟨by decide, rfl, fun x => ?_⟩
  cases x <;> simp [OrderStatus.IsValid, OrderStatus.listedAsValid]

/-- C9. `IsMatchable` holds exactly for `OrderStatusNotExecuted`,
`OrderStatusNotMatched` and `OrderStatusPartiallyMatched`; `CanBeExpired` is the same
predicate; and every matchable status is a valid one. -/
theorem OrderStatus_IsMatchable_iff (x : OrderStatus) :
    (x.IsMatchable = true ↔
      (x = OrderStatus.OrderStatusNotExecuted ∨ x = OrderStatus.OrderStatusNotMatched ∨
        x = OrderStatus.OrderStatusPartiallyMatched)) ∧
    x.CanBeExpired = x.IsMatchable ∧
    (x.IsMatchable = true → x.IsValid = true) := by
  cases x <;> simp [OrderStatus.IsMatchable, OrderStatus.CanBeExpired, OrderStatus.IsValid]

/-! ## The message server -/

/-- C6. For each of the five message handlers and every request whose sender
decodes: if the core call returns an error, the handler returns no response and
exactly that error; if the core call succeeds, the handler returns a response and no
error. -/
theorem msgServer_surfaces_core_result {Ctx : Type}
    (decode : String → Except Error AccAddress) (k : Keeper Ctx) (ctx : Ctx)
    (sender : String) (addr : AccAddress) (hsender : decode sender = Except.ok addr) :
    (∀ (baseDenom quoteDenom : String),
      (∀ err, (k.CreateMarket ctx addr baseDenom quoteDenom).1 = Except.error err →
        (msgServer.CreateMarket decode k ctx ⟨sender, baseDenom, quoteDenom⟩).1 =
          Outcome.failed err) ∧
      (∀ market, (k.CreateMarket ctx addr baseDenom quoteDenom).1 = Except.ok market →
        ∃ resp, (msgServer.CreateMarket decode k ctx ⟨sender, baseDenom, quoteDenom⟩).1 =
          Outcome.returned resp)) ∧
    (∀ (marketId : Nat) (isBuy : Bool) (price : Dec) (qty : Int),
      (∀ err, (k.PlaceLimitOrder ctx marketId addr isBuy price qty).1 = Except.error err →
        (msgServer.PlaceLimitOrder decode k ctx ⟨sender, marketId, isBuy, price, qty⟩).1 =
          Outcome.failed err) ∧
      (∀ res, (k.PlaceLimitOrder ctx marketId addr isBuy price qty).1 = Except.ok res →
        ∃ resp,
          (msgServer.PlaceLimitOrder decode k ctx ⟨sender, marketId, isBuy, price, qty⟩).1 =
            Outcome.returned resp)) ∧
    (∀ (marketId : Nat) (isBuy : Bool) (qty : Int),
      (∀ err, (k.PlaceMarketOrder ctx marketId addr isBuy qty).1 = Except.error err →
        (msgServer.PlaceMarketOrder decode k ctx ⟨sender, marketId, isBuy, qty⟩).1 =
          Outcome.failed err) ∧
      (∀ res, (k.PlaceMarketOrder ctx marketId addr isBuy qty).1 = Except.ok res →
        ∃ resp, (msgServer.PlaceMarketOrder decode k ctx ⟨sender, marketId, isBuy, qty⟩).1 =
          Outcome.returned resp)) ∧
    (∀ (orderId : Nat),
      (∀ err, (k.CancelOrder ctx addr orderId).1 = Except.error err →
        (msgServer.CancelOrder decode k ctx ⟨sender, orderId⟩).1 = Outcome.failed err) ∧
      (∀ order, (k.CancelOrder ctx addr orderId).1 = Except.ok order →
        ∃ resp, (msgServer.CancelOrder decode k ctx ⟨sender, orderId⟩).1 =
          Outcome.returned resp)) ∧
    (∀ (routes : List Nat) (input minOutput : Coin),
      (∀ err, (k.SwapExactIn ctx addr routes input minOutput false).1 = Except.error err →
        (msgServer.SwapExactIn decode k ctx ⟨sender, routes, input, minOutput⟩).1 =
          Outcome.failed err) ∧
      (∀ output, (k.SwapExactIn ctx addr routes input minOutput false).1 = Except.ok output →
        ∃ resp, (msgServer.SwapExactIn decode k ctx ⟨sender, routes, input, minOutput⟩).1 =
          Outcome.returned resp)) := by
  refine ⟨fun baseDenom quoteDenom => ?_, fun marketId isBuy price qty => ?_,
    fun marketId isBuy qty => ?_, fun orderId => ?_, fun routes input minOutput => ?_⟩
  · simp only [msgServer.CreateMarket, MustAccAddressFromBech32, hsender]
    rcases h : k.CreateMarket ctx addr baseDenom quoteDenom with ⟨_ | _, ctx1⟩ <;> simp
  · simp only [msgServer.PlaceLimitOrder, MustAccAddressFromBech32, hsender]
    rcases h : k.PlaceLimitOrder ctx marketId addr isBuy price qty with ⟨_ | _, ctx1⟩ <;> simp
  · simp only [msgServer.PlaceMarketOrder, MustAccAddressFromBech32, hsender]
    rcases h : k.PlaceMarketOrder ctx marketId addr isBuy qty with ⟨_ | _, ctx1⟩ <;> simp
  · simp only [msgServer.CancelOrder, MustAccAddressFromBech32, hsender]
    rcases h : k.CancelOrder ctx addr orderId with ⟨_ | _, ctx1⟩ <;> simp
    exact ⟨⟨⟩, trivial⟩
  · simp only [msgServer.SwapExactIn, MustAccAddressFromBech32, hsender]
    rcases h : k.SwapExactIn ctx addr routes input minOutput false with ⟨_ | _, ctx1⟩ <;> simp

/-- The sender `cre1alice` decodes; the core `CreateMarket` of `tiedKeeper` rejects
equal denominations, and `msgServer_surfaces_core_result` hands its error on. -/
theorem msgServer_surfaces_core_result_witness :
    exampleDecode "cre1alice" = Except.ok [1, 2, 3] ∧
    (msgServer.CreateMarket exampleDecode tiedKeeper () ⟨"cre1alice", "uatom", "uatom"⟩).1 =
      Outcome.failed Error.ErrInvalidRequest :=
  ⟨rfl,
    ((msgServer_surfaces_core_result exampleDecode tiedKeeper () "cre1alice" [1, 2, 3]
      rfl).1 "uatom" "uatom").1 Error.ErrInvalidRequest rfl⟩

/-- C7. For every successful core `PlaceLimitOrder` result `(order, execQty,
execQuote)`, the handler's response has `OrderId = order.Id`, `ExecutedQuantity =
execQty`, `ExecutedQuote = execQuote`, and `Rested` is true exactly when `order.Id >
0` and false exactly when `order.Id = 0`. -/
theorem msgServer_PlaceLimitOrder_response {Ctx : Type}
    (decode : String → Except Error AccAddress) (k : Keeper Ctx) (ctx : Ctx)
    (msg : MsgPlaceLimitOrder) (addr : AccAddress) (order : Order) (execQty execQuote : Int)
    (hsender : decode msg.Sender = Except.ok addr)
    (hcore : (k.PlaceLimitOrder ctx msg.MarketId addr msg.IsBuy msg.Price msg.Quantity).1 =
      Except.ok (order, execQty, execQuote)) :
    ∃ resp, (msgServer.PlaceLimitOrder decode k ctx msg).1 = Outcome.returned resp ∧
      resp.OrderId = order.Id ∧ resp.ExecutedQuantity = execQty ∧
      resp.ExecutedQuote = execQuote ∧
      (resp.Rested = true ↔ order.Id > 0) ∧ (resp.Rested = false ↔ order.Id = 0) := by
  simp only [msgServer.PlaceLimitOrder, MustAccAddressFromBech32, hsender]
  rcases h : k.PlaceLimitOrder ctx msg.MarketId addr msg.IsBuy msg.Price msg.Quantity with
    ⟨res, ctx1⟩
  rw [h] at hcore
  simp only at hcore
  subst hcore
  refine ⟨_, rfl, rfl, rfl, rfl, ?_, ?_⟩
  · simp
  · simp

/-- The limit order of `cre1alice` over `tiedKeeper` rests under id 7 after executing
40 for 60, and `msgServer_PlaceLimitOrder_response` gives the response. -/
theorem msgServer_PlaceLimitOrder_response_witness :
    exampleDecode "cre1alice" = Except.ok [1, 2, 3] ∧
    ∃ resp, (msgServer.PlaceLimitOrder exampleDecode tiedKeeper ()
        ⟨"cre1alice", 1, true, ⟨1500000000000000000⟩, 100⟩).1 = Outcome.returned resp ∧
      resp.OrderId = 7 ∧ resp.ExecutedQuantity = 40 ∧ resp.ExecutedQuote = 60 ∧
      (resp.Rested = true ↔ 7 > 0) ∧ (resp.Rested = false ↔ 7 = 0) :=
  ⟨rfl,
    msgServer_PlaceLimitOrder_response exampleDecode tiedKeeper ()
      ⟨"cre1alice", 1, true, ⟨1500000000000000000⟩, 100⟩ [1, 2, 3]
      ⟨7, 1, "cre1alice", true, ⟨1500000000000000000⟩, 100, 60, 1, 0⟩ 40 60 rfl rfl⟩

/-! ## The selection loop of `BestSwapExactInRoutes` -/

/-- A panic of the loop comes from a candidate whose simulation fails with an error
other than `ErrInsufficientOutput`. -/
theorem bestSwapLoop_error (swap : List Nat → Except Error Coin) :
    ∀ (l : List (List Nat)) (b : Int) (r : List Nat) (e : Error),
      bestSwapLoop swap l b r = Except.error e →
      ∃ c ∈ l, swap c = Except.error e ∧ errorsIs e Error.ErrInsufficientOutput = false := by
  intro l
  induction l with
  | nil => intro b r e h; simp [bestSwapLoop] at h
  | cons c rest ih =>
    intro b r e h
    unfold bestSwapLoop at h
    cases hc : swap c with
    | error err =>
      rw [hc] at h
      simp only at h
      by_cases hf : errorsIs err Error.ErrInsufficientOutput = true
      · simp only [hf, Bool.not_true, Bool.false_eq_true, if_false] at h
        obtain ⟨c1, hc1, h1⟩ := ih b r e h
        exact ⟨c1, List.mem_cons_of_mem _ hc1, h1⟩
      · have hf2 : errorsIs err Error.ErrInsufficientOutput = false := by simpa using hf
        simp only [hf2, Bool.not_false, if_true] at h
        have he : err = e := by injection h
        subst he
        exact ⟨c, List.mem_cons_self _ _, hc, hf2⟩
    | ok output =>
      rw [hc] at h
      simp only at h
      split at h
      · obtain ⟨c1, hc1, h1⟩ := ih _ _ e h
        exact ⟨c1, List.mem_cons_of_mem _ hc1, h1⟩
      · obtain ⟨c1, hc1, h1⟩ := ih _ _ e h
        exact ⟨c1, List.mem_cons_of_mem _ hc1, h1⟩

/-- The loop runs to its end exactly when no candidate fails with an error other
than `ErrInsufficientOutput`. -/
theorem bestSwapLoop_ok_iff (swap : List Nat → Except Error Coin) :
    ∀ (l : List (List Nat)) (b : Int) (r : List Nat),
      (∃ st, bestSwapLoop swap l b r = Except.ok st) ↔
      ∀ c ∈ l, ∀ err, swap c = Except.error err →
        errorsIs err Error.ErrInsufficientOutput = true := by
  intro l
  induction l with
  | nil => intro b r; simp [bestSwapLoop]
  | cons c rest ih =>
    intro b r
    unfold bestSwapLoop
    cases hc : swap c with
    | error err =>
      simp only
      by_cases hf : errorsIs err Error.ErrInsufficientOutput = true
      · simp only [hf, Bool.not_true, Bool.false_eq_true, if_false]
        rw [ih b r]
        constructor
        · intro h c1 hc1 e1 he1
          rcases List.mem_cons.mp hc1 with rfl | hmem
          · rw [hc] at he1
            have : err = e1 := by injection he1
            subst this; exact hf
          · exact h c1 hmem e1 he1
        · intro h c1 hc1 e1 he1
          exact h c1 (List.mem_cons_of_mem _ hc1) e1 he1
      · have hf2 : errorsIs err Error.ErrInsufficientOutput = false := by simpa using hf
        simp only [hf2, Bool.not_false, if_true]
        constructor
        · rintro ⟨st, hst⟩; cases hst
        · intro h
          have := h c (List.mem_cons_self _ _) err hc
          rw [hf2] at this; cases this
    | ok output =>
      simp only
      have key : (∀ c1 ∈ c :: rest, ∀ err, swap c1 = Except.error err →
            errorsIs err Error.ErrInsufficientOutput = true) ↔
          (∀ c1 ∈ rest, ∀ err, swap c1 = Except.error err →
            errorsIs err Error.ErrInsufficientOutput = true) := by
        constructor
        · intro h c1 hc1 e1 he1
          exact h c1 (List.mem_cons_of_mem _ hc1) e1 he1
        · intro h c1 hc1 e1 he1
          rcases List.mem_cons.mp hc1 with rfl | hmem
          · rw [hc] at he1; cases he1
          · exact h c1 hmem e1 he1
      rw [key]
      split
      · exact ih _ _
      · exact ih _ _

/-- What the loop leaves behind: either nothing was selected, and no candidate
succeeds above the initial output, or the selected route is the first candidate that
succeeds with the final output, which no candidate exceeds. -/
theorem bestSwapLoop_spec (swap : List Nat → Except Error Coin) :
    ∀ (l : List (List Nat)) (b : Int) (r : List Nat) (b1 : Int) (r1 : List Nat),
      bestSwapLoop swap l b r = Except.ok (b1, r1) →
      (b1 = b ∧ r1 = r ∧ ∀ c ∈ l, ∀ o, swap c = Except.ok o → o.amount ≤ b) ∨
      (b < b1 ∧ ∃ pre post o, l = pre ++ r1 :: post ∧ swap r1 = Except.ok o ∧
        o.amount = b1 ∧ (∀ c ∈ pre, ∀ o1, swap c = Except.ok o1 → o1.amount < b1) ∧
        (∀ c ∈ post, ∀ o1, swap c = Except.ok o1 → o1.amount ≤ b1)) := by
  intro l
  induction l with
  | nil =>
    intro b r b1 r1 h
    simp only [bestSwapLoop, Except.ok.injEq, Prod.mk.injEq] at h
    exact Or.inl ⟨h.1.symm, h.2.symm, by simp⟩
  | cons c rest ih =>
    intro b r b1 r1 h
    unfold bestSwapLoop at h
    cases hc : swap c with
    | error err =>
      rw [hc] at h
      simp only at h
      split at h
      · cases h
      · rcases ih b r b1 r1 h with ⟨h1, h2, h3⟩ | ⟨h1, pre, post, o, h2, h3, h4, h5, h6⟩
        · refine Or.inl ⟨h1, h2, fun c1 hc1 o1 ho1 => ?_⟩
          rcases List.mem_cons.mp hc1 with rfl | hmem
          · rw [hc] at ho1; cases ho1
          · exact h3 c1 hmem o1 ho1
        · refine Or.inr ⟨h1, c :: pre, post, o, by simp [h2], h3, h4, fun c1 hc1 o1 ho1 => ?_, h6⟩
          rcases List.mem_cons.mp hc1 with rfl | hmem
          · rw [hc] at ho1; cases ho1
          · exact h5 c1 hmem o1 ho1
    | ok output =>
      rw [hc] at h
      simp only at h
      split at h
      · rename_i hgt
        rcases ih _ _ b1 r1 h with ⟨h1, h2, h3⟩ | ⟨h1, pre, post, o, h2, h3, h4, h5, h6⟩
        · subst h1 h2
          exact Or.inr ⟨hgt, [], rest, output, rfl, hc, rfl, by simp, h3⟩
        · refine Or.inr ⟨lt_trans hgt h1, c :: pre, post, o, by simp [h2], h3, h4,
            fun c1 hc1 o1 ho1 => ?_, h6⟩
          rcases List.mem_cons.mp hc1 with rfl | hmem
          · rw [hc] at ho1
            have : output = o1 := by injection ho1
            subst this; exact h1
          · exact h5 c1 hmem o1 ho1
      · rename_i hle
        have hle2 : output.amount ≤ b := not_lt.mp hle
        rcases ih b r b1 r1 h with ⟨h1, h2, h3⟩ | ⟨h1, pre, post, o, h2, h3, h4, h5, h6⟩
        · refine Or.inl ⟨h1, h2, fun c1 hc1 o1 ho1 => ?_⟩
          rcases List.mem_cons.mp hc1 with rfl | hmem
          · rw [hc] at ho1
            have : output = o1 := by injection ho1
            subst this; exact hle2
          · exact h3 c1 hmem o1 ho1
        · refine Or.inr ⟨h1, c :: pre, post, o, by simp [h2], h3, h4,
            fun c1 hc1 o1 ho1 => ?_, h6⟩
          rcases List.mem_cons.mp hc1 with rfl | hmem
          · rw [hc] at ho1
            have : output = o1 := by injection ho1
            subst this; exact lt_of_le_of_lt hle2 h1
          · exact h5 c1 hmem o1 ho1

/-- The final output of the loop is the maximum of the initial output and the
amounts of the successful candidates. -/
theorem bestSwapLoop_fst (swap : List Nat → Except Error Coin) :
    ∀ (l : List (List Nat)) (b : Int) (r : List Nat) (b1 : Int) (r1 : List Nat),
      bestSwapLoop swap l b r = Except.ok (b1, r1) →
      b1 = (successAmounts swap l).foldl max b := by
  intro l
  induction l with
  | nil =>
    intro b r b1 r1 h
    simp only [bestSwapLoop, Except.ok.injEq, Prod.mk.injEq] at h
    simp [successAmounts, h.1]
  | cons c rest ih =>
    intro b r b1 r1 h
    unfold bestSwapLoop at h
    cases hc : swap c with
    | error err =>
      rw [hc] at h
      simp only at h
      split at h
      · cases h
      · have := ih b r b1 r1 h
        simpa [successAmounts, List.filterMap_cons, hc] using this
    | ok output =>
      rw [hc] at h
      simp only at h
      split at h
      · rename_i hgt
        have := ih _ _ b1 r1 h
        simp only [successAmounts, List.filterMap_cons, hc, List.foldl_cons]
        rw [max_eq_right (le_of_lt hgt)]
        exact this
      · rename_i hle
        have := ih _ _ b1 r1 h
        simp only [successAmounts, List.filterMap_cons, hc, List.foldl_cons]
        rw [max_eq_left (not_lt.mp hle)]
        exact this

/-! ## `BestSwapExactInRoutes` -/

/-- The loop never lowers the best output. -/
theorem bestSwapLoop_le (swap : List Nat → Except Error Coin) (l : List (List Nat))
    (b : Int) (r : List Nat) (b1 : Int) (r1 : List Nat)
    (h : bestSwapLoop swap l b r = Except.ok (b1, r1)) : b ≤ b1 := by
  rcases bestSwapLoop_spec swap l b r b1 r1 h with ⟨h1, _⟩ | ⟨h1, _⟩
  · exact le_of_eq h1.symm
  · exact le_of_lt h1

/-- The coin `sdk.NewCoin` builds from a valid denomination and a non-negative
amount. -/
theorem NewCoin_returned (denom : String) (amount : Int)
    (hden : ValidateDenom denom = none) (hamount : 0 ≤ amount) :
    NewCoin denom amount = Outcome.returned ⟨denom, amount⟩ := by
  simp [NewCoin, Coin.Validate, hden, not_lt.mpr hamount]

/-- The coin `sdk.NewCoin` returns, when it returns one. -/
theorem NewCoin_eq_returned (denom : String) (amount : Int) (c : Coin)
    (h : NewCoin denom amount = Outcome.returned c) : c = ⟨denom, amount⟩ := by
  unfold NewCoin at h
  split at h
  · cases h
  · injection h with h; exact h.symm

/-- `BestSwapExactInRoutes` on a request with candidates, in terms of the loop. -/
theorem BestSwapExactInRoutes_eq {Ctx : Type} (k : Keeper Ctx) (ctx : Ctx)
    (req : QueryBestSwapExactInRoutesRequest) (hne : candidateRoutes k ctx req ≠ []) :
    Querier.BestSwapExactInRoutes k ctx (some req) =
      match bestSwapLoop (simulateSwap k ctx req) (candidateRoutes k ctx req) 0 [] with
      | Except.error err => Outcome.panicked err
      | Except.ok (bestOutput, bestRoutes) =>
          if bestOutput < req.MinOutput.amount then Outcome.failed errNoPossibleRoutes
          else
            match NewCoin req.MinOutput.denom bestOutput with
            | Outcome.panicked err => Outcome.panicked err
            | Outcome.failed err => Outcome.failed err
            | Outcome.returned output =>
                Outcome.returned { Routes := bestRoutes, Output := output } := by
  simp only [Querier.BestSwapExactInRoutes, List.length_eq_zero, hne, if_false, ZeroInt]

/-- `BestSwapExactInRoutes` on a request without candidates. -/
theorem BestSwapExactInRoutes_nil {Ctx : Type} (k : Keeper Ctx) (ctx : Ctx)
    (req : QueryBestSwapExactInRoutesRequest) (hnil : candidateRoutes k ctx req = []) :
    Querier.BestSwapExactInRoutes k ctx (some req) = Outcome.failed errNoPossibleRoutes := by
  simp [Querier.BestSwapExactInRoutes, hnil]

/-- A response of `BestSwapExactInRoutes` carries the final state of the loop. -/
theorem BestSwapExactInRoutes_returned {Ctx : Type} (k : Keeper Ctx) (ctx : Ctx)
    (req : QueryBestSwapExactInRoutesRequest) (resp : QueryBestSwapExactInRoutesResponse)
    (h : Querier.BestSwapExactInRoutes k ctx (some req) = Outcome.returned resp) :
    candidateRoutes k ctx req ≠ [] ∧
    bestSwapLoop (simulateSwap k ctx req) (candidateRoutes k ctx req) 0 [] =
      Except.ok (resp.Output.amount, resp.Routes) ∧
    req.MinOutput.amount ≤ resp.Output.amount ∧
    resp.Output.denom = req.MinOutput.denom := by
  have hne : candidateRoutes k ctx req ≠ [] := by
    intro hnil
    rw [BestSwapExactInRoutes_nil k ctx req hnil] at h
    cases h
  rw [BestSwapExactInRoutes_eq k ctx req hne] at h
  cases hl : bestSwapLoop (simulateSwap k ctx req) (candidateRoutes k ctx req) 0 [] with
  | error err => rw [hl] at h; cases h
  | ok st =>
    obtain ⟨b1, r1⟩ := st
    rw [hl] at h
    simp only at h
    split at h
    · cases h
    · rename_i hmin
      cases hc : NewCoin req.MinOutput.denom b1 with
      | panicked err => rw [hc] at h; cases h
      | failed err => rw [hc] at h; cases h
      | returned output =>
        rw [hc] at h
        simp only at h
        have ho := NewCoin_eq_returned _ _ _ hc
        injection h with h
        subst h
        subst ho
        exact ⟨hne, rfl, not_lt.mp hmin, rfl⟩

/-- C2, as stated, fails: with the single candidate `[1]` and a minimum output of 0,
a swap that succeeds with output 0, and likewise a swap that fails with
`ErrInsufficientOutput`, makes the query return a response whose `Routes` is empty,
which is not a candidate. -/
theorem BestSwapExactInRoutes_routes_not_candidate :
    (Querier.BestSwapExactInRoutes zeroOutputKeeper () (some zeroMinRequest) =
        Outcome.returned { Routes := [], Output := ⟨"uusdc", 0⟩ } ∧
      simulateSwap zeroOutputKeeper () zeroMinRequest [1] = Except.ok ⟨"uusdc", 0⟩ ∧
      candidateRoutes zeroOutputKeeper () zeroMinRequest = [[1]] ∧
      ([] : List Nat) ∉ candidateRoutes zeroOutputKeeper () zeroMinRequest) ∧
    (Querier.BestSwapExactInRoutes insufficientKeeper () (some zeroMinRequest) =
        Outcome.returned { Routes := [], Output := ⟨"uusdc", 0⟩ } ∧
      simulateSwap insufficientKeeper () zeroMinRequest [1] =
        Except.error (Error.wrap Error.ErrInsufficientOutput "no liquidity") ∧
      candidateRoutes insufficientKeeper () zeroMinRequest = [[1]] ∧
      ([] : List Nat) ∉ candidateRoutes insufficientKeeper () zeroMinRequest) :=
  ⟨⟨by decide, rfl, rfl, by decide⟩, ⟨by decide, rfl, rfl, by decide⟩⟩

/-- C2, amended. Whenever `BestSwapExactInRoutes` returns a response, no candidate has
a successful simulated output strictly larger than the returned `Output` amount; and
if that amount is positive, the returned `Routes` is one of the candidates and its
simulated output amount equals the returned amount. -/
theorem BestSwapExactInRoutes_returns_best {Ctx : Type} (k : Keeper Ctx) (ctx : Ctx)
    (req : QueryBestSwapExactInRoutesRequest) (resp : QueryBestSwapExactInRoutesResponse)
    (hret : Querier.BestSwapExactInRoutes k ctx (some req) = Outcome.returned resp) :
    (∀ c ∈ candidateRoutes k ctx req, ∀ o, simulateSwap k ctx req c = Except.ok o →
      o.amount ≤ resp.Output.amount) ∧
    (0 < resp.Output.amount →
      resp.Routes ∈ candidateRoutes k ctx req ∧
      ∃ o, simulateSwap k ctx req resp.Routes = Except.ok o ∧
        o.amount = resp.Output.amount) := by
  obtain ⟨_, hloop, _, _⟩ := BestSwapExactInRoutes_returned k ctx req resp hret
  rcases bestSwapLoop_spec _ _ _ _ _ _ hloop with
    ⟨h1, _, h3⟩ | ⟨_, pre, post, o, h2, h3, h4, h5, h6⟩
  · refine ⟨fun c hc o ho => ?_, fun hpos => ?_⟩
    · rw [h1]; exact h3 c hc o ho
    · rw [h1] at hpos; exact absurd hpos (lt_irrefl _)
  · refine ⟨fun c hc o1 ho1 => ?_, fun _ => ⟨?_, o, h3, h4⟩⟩
    · rw [h2] at hc
      rcases List.mem_append.mp hc with hpre | hrest
      · exact le_of_lt (h5 c hpre o1 ho1)
      · rcases List.mem_cons.mp hrest with rfl | hpost
        · rw [h3] at ho1
          have : o = o1 := by injection ho1
          subst this; exact le_of_eq h4
        · exact h6 c hpost o1 ho1
    · rw [h2]; simp

/-- The query over `tiedKeeper` returns a response, of which
`BestSwapExactInRoutes_returns_best` says that its route is a candidate. -/
theorem BestSwapExactInRoutes_returns_best_witness :
    Querier.BestSwapExactInRoutes tiedKeeper () (some nineMinRequest) =
        Outcome.returned { Routes := [2], Output := ⟨"uusdc", 10⟩ } ∧
    ([2] : List Nat) ∈ candidateRoutes tiedKeeper () nineMinRequest :=
  ⟨by decide,
    ((BestSwapExactInRoutes_returns_best tiedKeeper () nineMinRequest
      { Routes := [2], Output := ⟨"uusdc", 10⟩ } (by decide)).2 (by decide)).1⟩

/-- C3, as stated, fails: the candidates `[2]` and `[1]` both simulate to the maximal
output 10, and the query returns `[2]`, although `[1]` is lexicographically
smaller. -/
theorem BestSwapExactInRoutes_tie_not_lexicographic :
    Querier.BestSwapExactInRoutes tiedKeeper () (some nineMinRequest) =
        Outcome.returned { Routes := [2], Output := ⟨"uusdc", 10⟩ } ∧
    candidateRoutes tiedKeeper () nineMinRequest = [[2], [1]] ∧
    simulateSwap tiedKeeper () nineMinRequest [2] = Except.ok ⟨"uusdc", 10⟩ ∧
    simulateSwap tiedKeeper () nineMinRequest [1] = Except.ok ⟨"uusdc", 10⟩ ∧
    ([1] : List Nat) < [2] :=
  ⟨by decide, rfl, rfl, rfl, by decide⟩

/-- C3, amended. Whenever `BestSwapExactInRoutes` returns a response with a positive
`Output` amount, the returned `Routes` is the first candidate, in the order of the
candidate list, whose simulated output is the maximal one: every earlier candidate
succeeds with strictly less or not at all, and no later candidate succeeds with
more.  It is the lexicographically smallest of the maximal candidates when the
candidate list is in ascending lexicographic order. -/
theorem BestSwapExactInRoutes_returns_first_maximal {Ctx : Type} (k : Keeper Ctx) (ctx : Ctx)
    (req : QueryBestSwapExactInRoutesRequest) (resp : QueryBestSwapExactInRoutesResponse)
    (hret : Querier.BestSwapExactInRoutes k ctx (some req) = Outcome.returned resp)
    (hpos : 0 < resp.Output.amount) :
    (∃ pre post, candidateRoutes k ctx req = pre ++ resp.Routes :: post ∧
      (∃ o, simulateSwap k ctx req resp.Routes = Except.ok o ∧
        o.amount = resp.Output.amount) ∧
      (∀ c ∈ pre, ∀ o, simulateSwap k ctx req c = Except.ok o →
        o.amount < resp.Output.amount) ∧
      (∀ c ∈ post, ∀ o, simulateSwap k ctx req c = Except.ok o →
        o.amount ≤ resp.Output.amount)) ∧
    (List.Pairwise (fun a b => a ≤ b) (candidateRoutes k ctx req) →
      ∀ c ∈ candidateRoutes k ctx req, ∀ o, simulateSwap k ctx req c = Except.ok o →
        o.amount = resp.Output.amount → resp.Routes ≤ c) := by
  obtain ⟨_, hloop, _, _⟩ := BestSwapExactInRoutes_returned k ctx req resp hret
  rcases bestSwapLoop_spec _ _ _ _ _ _ hloop with
    ⟨h1, _, _⟩ | ⟨_, pre, post, o, h2, h3, h4, h5, h6⟩
  · rw [h1] at hpos; exact absurd hpos (lt_irrefl _)
  · refine ⟨⟨pre, post, h2, ⟨o, h3, h4⟩, h5, h6⟩, fun hsorted c hc o1 ho1 hmax => ?_⟩
    rw [h2] at hc hsorted
    rcases List.mem_append.mp hc with hpre | hrest
    · have := h5 c hpre o1 ho1
      rw [hmax] at this; exact absurd this (lt_irrefl _)
    · rcases List.mem_cons.mp hrest with rfl | hpost
      · exact le_refl _
      · exact (List.pairwise_cons.mp (List.pairwise_append.mp hsorted).2.1).1 c hpost

/-- The query over `tiedKeeper` returns `[2]`, of which
`BestSwapExactInRoutes_returns_first_maximal` says that it is the first maximal
candidate. -/
theorem BestSwapExactInRoutes_returns_first_maximal_witness :
    Querier.BestSwapExactInRoutes tiedKeeper () (some nineMinRequest) =
        Outcome.returned { Routes := [2], Output := ⟨"uusdc", 10⟩ } ∧
    ∃ pre post, candidateRoutes tiedKeeper () nineMinRequest = pre ++ [2] :: post ∧
      (∃ o, simulateSwap tiedKeeper () nineMinRequest [2] = Except.ok o ∧ o.amount = 10) ∧
      (∀ c ∈ pre, ∀ o, simulateSwap tiedKeeper () nineMinRequest c = Except.ok o →
        o.amount < 10) ∧
      (∀ c ∈ post, ∀ o, simulateSwap tiedKeeper () nineMinRequest c = Except.ok o →
        o.amount ≤ 10) :=
  ⟨by decide,
    (BestSwapExactInRoutes_returns_first_maximal tiedKeeper () nineMinRequest
      { Routes := [2], Output := ⟨"uusdc", 10⟩ } (by decide) (by decide)).1⟩

/-- With candidates and a valid output denomination, a panic of the query is a panic
of the loop. -/
theorem BestSwapExactInRoutes_panicked {Ctx : Type} (k : Keeper Ctx) (ctx : Ctx)
    (req : QueryBestSwapExactInRoutesRequest) (e : Error)
    (hne : candidateRoutes k ctx req ≠ [])
    (hden : ValidateDenom req.MinOutput.denom = none)
    (h : Querier.BestSwapExactInRoutes k ctx (some req) = Outcome.panicked e) :
    bestSwapLoop (simulateSwap k ctx req) (candidateRoutes k ctx req) 0 [] =
      Except.error e := by
  rw [BestSwapExactInRoutes_eq k ctx req hne] at h
  cases hl : bestSwapLoop (simulateSwap k ctx req) (candidateRoutes k ctx req) 0 [] with
  | error err =>
    rw [hl] at h
    simp only at h
    injection h with h
    rw [h]
  | ok st =>
    obtain ⟨b1, r1⟩ := st
    rw [hl] at h
    simp only at h
    rw [NewCoin_returned _ _ hden (bestSwapLoop_le _ _ _ _ _ _ hl)] at h
    split at h <;> cases h

/-- The amounts of the successful candidates are the amounts of their outputs. -/
theorem mem_successAmounts (swap : List Nat → Except Error Coin) (l : List (List Nat))
    (a : Int) (ha : a ∈ successAmounts swap l) :
    ∃ c ∈ l, ∃ o, swap c = Except.ok o ∧ o.amount = a := by
  unfold successAmounts at ha
  obtain ⟨c, hc, hm⟩ := List.mem_filterMap.mp ha
  cases hs : swap c with
  | error err => rw [hs] at hm; cases hm
  | ok o =>
    rw [hs] at hm
    simp only [Option.some.injEq] at hm
    exact ⟨c, hc, o, hs, hm⟩

/-- When the successful outputs are non-negative, the maximum of 0 and the successful
amounts is the largest successful output, 0 when there is none. -/
theorem foldl_max_eq_largest (swap : List Nat → Except Error Coin) (l : List (List Nat))
    (hnonneg : ∀ c ∈ l, ∀ o, swap c = Except.ok o → 0 ≤ o.amount) :
    (successAmounts swap l).foldl max 0 = largestSuccessfulOutput swap l := by
  unfold largestSuccessfulOutput
  cases hs : successAmounts swap l with
  | nil => rfl
  | cons a as =>
    have ha : 0 ≤ a := by
      obtain ⟨c, hc, o, ho, hoa⟩ := mem_successAmounts swap l a (by rw [hs]; simp)
      rw [← hoa]; exact hnonneg c hc o ho
    simp only [List.foldl_cons, max_eq_right ha]

/-- C4, as stated, fails. With the candidates `[2]` and `[1]`, both simulating to 10,
and the minimum output 9 of `x`, which is not a valid denomination, no simulation
fails and yet the query panics, in `sdk.NewCoin`.  And with the empty route as the
single candidate, its simulation returning `ErrInsufficientOutput`, and the minimum
output 0, the response carries the empty `Routes`, which is that candidate. -/
theorem BestSwapExactInRoutes_panics_without_fatal_simulation :
    (Querier.BestSwapExactInRoutes tiedKeeper () (some invalidDenomRequest) =
        Outcome.panicked (Error.errorf "invalid denom: %s") ∧
      candidateRoutes tiedKeeper () invalidDenomRequest = [[2], [1]] ∧
      simulateSwap tiedKeeper () invalidDenomRequest [2] = Except.ok ⟨"x", 10⟩ ∧
      simulateSwap tiedKeeper () invalidDenomRequest [1] = Except.ok ⟨"x", 10⟩) ∧
    (Querier.BestSwapExactInRoutes emptyRouteKeeper () (some zeroMinRequest) =
        Outcome.returned { Routes := [], Output := ⟨"uusdc", 0⟩ } ∧
      candidateRoutes emptyRouteKeeper () zeroMinRequest = [[]] ∧
      simulateSwap emptyRouteKeeper () zeroMinRequest [] =
        Except.error (Error.wrap Error.ErrInsufficientOutput "no liquidity") ∧
      errorsIs (Error.wrap Error.ErrInsufficientOutput "no liquidity")
        Error.ErrInsufficientOutput = true) :=
  ⟨⟨by decide, rfl, rfl, rfl⟩, ⟨by decide, rfl, rfl, by decide⟩⟩

/-- C4, amended. For every non-nil request with a non-empty list of candidates and a
valid `MinOutput` denomination: `BestSwapExactInRoutes` panics if and only if the
simulated swap of some candidate returns an error other than `ErrInsufficientOutput`;
the value of the panic is such an error of a candidate, so that a candidate whose
simulation returns `ErrInsufficientOutput` never aborts the query; and such a
candidate, when it is a non-empty route, is never the returned route. -/
theorem BestSwapExactInRoutes_panics_iff {Ctx : Type} (k : Keeper Ctx) (ctx : Ctx)
    (req : QueryBestSwapExactInRoutesRequest)
    (hne : candidateRoutes k ctx req ≠ [])
    (hden : ValidateDenom req.MinOutput.denom = none) :
    ((∃ e, Querier.BestSwapExactInRoutes k ctx (some req) = Outcome.panicked e) ↔
      ∃ c ∈ candidateRoutes k ctx req, ∃ err, simulateSwap k ctx req c = Except.error err ∧
        errorsIs err Error.ErrInsufficientOutput = false) ∧
    (∀ e, Querier.BestSwapExactInRoutes k ctx (some req) = Outcome.panicked e →
      errorsIs e Error.ErrInsufficientOutput = false ∧
      ∃ c ∈ candidateRoutes k ctx req, simulateSwap k ctx req c = Except.error e) ∧
    (∀ resp, Querier.BestSwapExactInRoutes k ctx (some req) = Outcome.returned resp →
      ∀ c ∈ candidateRoutes k ctx req, c ≠ [] →
        ∀ err, simulateSwap k ctx req c = Except.error err →
          errorsIs err Error.ErrInsufficientOutput = true → resp.Routes ≠ c) := by
  refine ⟨⟨?_, ?_⟩, ?_, ?_⟩
  · rintro ⟨e, he⟩
    have hl := BestSwapExactInRoutes_panicked k ctx req e hne hden he
    obtain ⟨c, hc, h1, h2⟩ := bestSwapLoop_error _ _ _ _ _ hl
    exact ⟨c, hc, e, h1, h2⟩
  · rintro ⟨c, hc, err, h1, h2⟩
    rw [BestSwapExactInRoutes_eq k ctx req hne]
    cases hl : bestSwapLoop (simulateSwap k ctx req) (candidateRoutes k ctx req) 0 [] with
    | error e => exact ⟨e, rfl⟩
    | ok st =>
      have := (bestSwapLoop_ok_iff _ _ _ _).mp ⟨st, hl⟩ c hc err h1
      rw [h2] at this; cases this
  · intro e he
    have hl := BestSwapExactInRoutes_panicked k ctx req e hne hden he
    obtain ⟨c, hc, h1, h2⟩ := bestSwapLoop_error _ _ _ _ _ hl
    exact ⟨h2, c, hc, h1⟩
  · intro resp hret c _ hc err herr _ heq
    obtain ⟨_, hloop, _, _⟩ := BestSwapExactInRoutes_returned k ctx req resp hret
    rcases bestSwapLoop_spec _ _ _ _ _ _ hloop with
      ⟨_, h2, _⟩ | ⟨_, pre, post, o, _, h3, _, _, _⟩
    · exact hc (by rw [← heq, h2])
    · rw [heq, herr] at h3; cases h3

/-- The query over `fatalKeeper` satisfies the hypotheses of
`BestSwapExactInRoutes_panics_iff`: the simulation of the candidate `[2]` fails with
an error other than `ErrInsufficientOutput`, so the query panics, and with that
error. -/
theorem BestSwapExactInRoutes_panics_iff_witness :
    candidateRoutes fatalKeeper () nineMinRequest ≠ [] ∧
    ValidateDenom nineMinRequest.MinOutput.denom = none ∧
    (∃ e, Querier.BestSwapExactInRoutes fatalKeeper () (some nineMinRequest) =
      Outcome.panicked e) ∧
    Querier.BestSwapExactInRoutes fatalKeeper () (some nineMinRequest) =
      Outcome.panicked (Error.errorf "market not found") :=
  ⟨by decide, by decide,
    (BestSwapExactInRoutes_panics_iff fatalKeeper () nineMinRequest
      (by decide) (by decide)).1.mpr
      ⟨[2], by decide, Error.errorf "market not found", rfl, by decide⟩,
    by decide⟩

/-- C5, as stated, fails. With the candidates `[2]` and `[1]`, both simulating to 10,
and the minimum output 9 of `x`, which is not a valid denomination, no simulation
fails, the candidate list is not empty and the largest output 10 is not below 9, and
yet the query returns no response: it panics in `sdk.NewCoin`.  And with the single
candidate `[1]` simulating to -5 and the minimum output -3, the largest successful
output -5 is below the minimum, and yet the query returns a response, with the
output 0. -/
theorem BestSwapExactInRoutes_neither_notFound_nor_response :
    (Querier.BestSwapExactInRoutes tiedKeeper () (some invalidDenomRequest) =
        Outcome.panicked (Error.errorf "invalid denom: %s") ∧
      candidateRoutes tiedKeeper () invalidDenomRequest = [[2], [1]] ∧
      simulateSwap tiedKeeper () invalidDenomRequest [2] = Except.ok ⟨"x", 10⟩ ∧
      simulateSwap tiedKeeper () invalidDenomRequest [1] = Except.ok ⟨"x", 10⟩ ∧
      largestSuccessfulOutput (simulateSwap tiedKeeper () invalidDenomRequest)
        (candidateRoutes tiedKeeper () invalidDenomRequest) = 10 ∧
      invalidDenomRequest.MinOutput.amount = 9) ∧
    (Querier.BestSwapExactInRoutes negativeKeeper () (some negativeMinRequest) =
        Outcome.returned { Routes := [], Output := ⟨"uusdc", 0⟩ } ∧
      candidateRoutes negativeKeeper () negativeMinRequest = [[1]] ∧
      simulateSwap negativeKeeper () negativeMinRequest [1] = Except.ok ⟨"uusdc", -5⟩ ∧
      largestSuccessfulOutput (simulateSwap negativeKeeper () negativeMinRequest)
        (candidateRoutes negativeKeeper () negativeMinRequest) = -5 ∧
      negativeMinRequest.MinOutput.amount = -3) :=
  ⟨⟨by decide, rfl, rfl, rfl, by decide, rfl⟩, ⟨by decide, rfl, rfl, by decide, rfl⟩⟩

/-- C5, amended. For every non-nil request whose simulations raise no fatal error and
succeed with non-negative amounts only, and whose `MinOutput` denomination is valid
when there are candidates: `BestSwapExactInRoutes` returns the `ErrNotFound` error "no possible
routes" if and only if the candidate list is empty or the largest successful
simulated output (0 when no candidate succeeds) is less than `MinOutput.amount`; in
every other case it returns a response whose `Output` has the denomination of
`MinOutput` and an amount of at least `MinOutput.amount`. -/
theorem BestSwapExactInRoutes_notFound_iff {Ctx : Type} (k : Keeper Ctx) (ctx : Ctx)
    (req : QueryBestSwapExactInRoutesRequest)
    (hfatal : ∀ c ∈ candidateRoutes k ctx req, ∀ err,
      simulateSwap k ctx req c = Except.error err →
        errorsIs err Error.ErrInsufficientOutput = true)
    (hnonneg : ∀ c ∈ candidateRoutes k ctx req, ∀ o,
      simulateSwap k ctx req c = Except.ok o → 0 ≤ o.amount)
    (hden : candidateRoutes k ctx req ≠ [] → ValidateDenom req.MinOutput.denom = none) :
    errorsIs errNoPossibleRoutes Error.ErrNotFound = true ∧
    (Querier.BestSwapExactInRoutes k ctx (some req) = Outcome.failed errNoPossibleRoutes ↔
      (candidateRoutes k ctx req = [] ∨
        largestSuccessfulOutput (simulateSwap k ctx req) (candidateRoutes k ctx req) <
          req.MinOutput.amount)) ∧
    (¬ (candidateRoutes k ctx req = [] ∨
        largestSuccessfulOutput (simulateSwap k ctx req) (candidateRoutes k ctx req) <
          req.MinOutput.amount) →
      ∃ resp, Querier.BestSwapExactInRoutes k ctx (some req) = Outcome.returned resp ∧
        resp.Output.denom = req.MinOutput.denom ∧
        req.MinOutput.amount ≤ resp.Output.amount) := by
  refine ⟨by decide, ?_⟩
  by_cases hnil : candidateRoutes k ctx req = []
  · rw [BestSwapExactInRoutes_nil k ctx req hnil]
    simp [hnil]
  · obtain ⟨⟨b1, r1⟩, hl⟩ := (bestSwapLoop_ok_iff (simulateSwap k ctx req)
      (candidateRoutes k ctx req) 0 []).mpr hfatal
    have hb : b1 = largestSuccessfulOutput (simulateSwap k ctx req)
        (candidateRoutes k ctx req) := by
      rw [← foldl_max_eq_largest _ _ hnonneg]
      exact bestSwapLoop_fst _ _ _ _ _ _ hl
    rw [BestSwapExactInRoutes_eq k ctx req hnil, hl, ← hb]
    simp only [hnil, false_or]
    rw [NewCoin_returned _ _ (hden hnil) (bestSwapLoop_le _ _ _ _ _ _ hl)]
    by_cases hmin : b1 < req.MinOutput.amount
    · simp [hmin]
    · simp only [hmin, if_false, not_false_eq_true, true_implies]
      refine ⟨by simp, ⟨_, rfl, rfl, not_lt.mp hmin⟩⟩

/-- The query over `tiedKeeper` satisfies the hypotheses of
`BestSwapExactInRoutes_notFound_iff`: the largest output 10 reaches the minimum 9, and
the query does not fail with "no possible routes". -/
theorem BestSwapExactInRoutes_notFound_iff_witness :
    largestSuccessfulOutput (simulateSwap tiedKeeper () nineMinRequest)
      (candidateRoutes tiedKeeper () nineMinRequest) = 10 ∧
    (Querier.BestSwapExactInRoutes tiedKeeper () (some nineMinRequest) =
        Outcome.failed errNoPossibleRoutes ↔
      (candidateRoutes tiedKeeper () nineMinRequest = [] ∨
        largestSuccessfulOutput (simulateSwap tiedKeeper () nineMinRequest)
          (candidateRoutes tiedKeeper () nineMinRequest) < nineMinRequest.MinOutput.amount)) :=
  ⟨by decide,
    (BestSwapExactInRoutes_notFound_iff tiedKeeper () nineMinRequest
      (fun c hc err herr => by
        have hc2 : c = [2] ∨ c = [1] := by simpa [candidateRoutes, tiedKeeper] using hc
        rcases hc2 with rfl | rfl <;> cases herr)
      (fun c hc o ho => by
        have hc2 : c = [2] ∨ c = [1] := by simpa [candidateRoutes, tiedKeeper] using hc
        rcases hc2 with rfl | rfl <;>
        · have : o = ⟨"uusdc", 10⟩ := by
            have h2 : (Except.ok ⟨"uusdc", 10⟩ : Except Error Coin) = Except.ok o := ho
            injection h2 with h2; exact h2.symm
          subst this; decide)
      (fun _ => by decide)).2.1⟩

/-! ## The price bounds -/

theorem Dec.toRat_lt_iff (a b : Dec) : a.toRat < b.toRat ↔ a.raw < b.raw := by
  rw [← not_le, ← not_le, Dec.toRat_le_iff]

theorem Dec.zero_lt_toRat_iff (d : Dec) : 0 < d.toRat ↔ 0 < d.raw := by
  have h := Dec.toRat_lt_iff ⟨0⟩ d
  have e : (⟨0⟩ : Dec).toRat = 0 := by rw [Dec.toRat_eq]; simp
  rw [e] at h
  exact h

/-- C11. As decimals with 18 fractional digits, `MinPrice` is exactly `10^-14` (raw
integer `10^4`) and `MaxPrice` is exactly `10^40` (raw integer `10^58`); `MinPrice` is
positive and below `MaxPrice`, so the interval from `MinPrice` to `MaxPrice` holds a
price and holds positive prices only. -/
theorem MinPrice_MaxPrice_values :
    MinPrice.raw = 10 ^ 4 ∧ MinPrice.toRat = 1 / 10 ^ 14 ∧
    MaxPrice.raw = 10 ^ 58 ∧ MaxPrice.toRat = 10 ^ 40 ∧
    0 < MinPrice.toRat ∧ MinPrice.toRat < MaxPrice.toRat ∧
    (∃ p : Dec, MinPrice.toRat ≤ p.toRat ∧ p.toRat ≤ MaxPrice.toRat) ∧
    (∀ p : Dec, MinPrice.toRat ≤ p.toRat → p.toRat ≤ MaxPrice.toRat → 0 < p.toRat) := by
  have hmin : MinPrice.raw = 10 ^ 4 := by decide
  have hmax : MaxPrice.raw = 10 ^ 58 := by decide
  have hpos : 0 < MinPrice.toRat := by
    rw [Dec.zero_lt_toRat_iff, hmin]; norm_num
  have hlt : MinPrice.toRat < MaxPrice.toRat := by
    rw [Dec.toRat_lt_iff, hmin, hmax]; norm_num
  refine ⟨hmin, ?_, hmax, ?_, hpos, hlt, ⟨MinPrice, le_refl _, le_of_lt hlt⟩,
    fun p hp _ => lt_of_lt_of_le hpos hp⟩
  · rw [Dec.toRat_eq, hmin]; norm_num
  · rw [Dec.toRat_eq, hmax]; norm_num

/-! ## Validation of bootstrap orders -/

/-- What `Order.Validate` has checked when it returns no error. -/
theorem Bootstrap.Order.Validate_sound (decode : String → Except Error AccAddress)
    (m : Bootstrap.Order) (h : m.Validate decode = none) :
    m.Id ≠ 0 ∧ m.BootstrapPoolId ≠ 0 ∧ m.MsgHeight ≠ 0 ∧
    (m.Direction = Bootstrap.OrderDirection.OrderDirectionBuy ∨
      m.Direction = Bootstrap.OrderDirection.OrderDirectionSell) ∧
    m.OfferCoin.IsZero = false ∧
    m.OfferCoin.denom = m.RemainingOfferCoin.denom ∧
    0 < m.Price.toRat ∧ m.Status.IsValid = true := by
  unfold Bootstrap.Order.Validate at h
  split at h
  · cases h
  rename_i h1
  split at h
  · cases h
  rename_i h2
  split at h
  · cases h
  rename_i h3
  split at h
  · cases h
  split at h
  · cases h
  rename_i h4
  split at h
  · cases h
  split at h
  · cases h
  rename_i h5
  split at h
  · cases h
  split at h
  · cases h
  rename_i h6
  split at h
  · cases h
  split at h
  · cases h
  rename_i h7
  split at h
  · cases h
  rename_i h8
  refine ⟨h1, h2, h3, ?_, by simpa using h5, by simpa using h6, ?_, by simpa using h8⟩
  · by_contra hd
    exact h4 (not_or.mp hd)
  · rw [Dec.zero_lt_toRat_iff]
    simpa [Dec.IsPositive] using h7

/-- C12. At the failing input: `Order.Validate` accepts `exampleOrder` and rejects the
same order with the status `OrderStatusCanceled`, which the comment above
`OrderStatus.IsValid` lists as valid, with the error "invalid status"; and every
order it accepts has non-zero id, pool id and message height, the direction buy or
sell, a non-zero offer coin in the denomination of the remaining offer coin, a
positive price, and a status that `IsValid` accepts. -/
theorem Order_Validate_rejects_Canceled :
    OrderStatus.OrderStatusCanceled ∈ OrderStatus.listedAsValid ∧
    Bootstrap.Order.Validate exampleDecode Bootstrap.exampleOrder = none ∧
    Bootstrap.Order.Validate exampleDecode Bootstrap.canceledOrder =
      some (Error.errorf "invalid status: %s") ∧
    (∀ (decode : String → Except Error AccAddress) (m : Bootstrap.Order),
      m.Validate decode = none →
        m.Id ≠ 0 ∧ m.BootstrapPoolId ≠ 0 ∧ m.MsgHeight ≠ 0 ∧
        (m.Direction = Bootstrap.OrderDirection.OrderDirectionBuy ∨
          m.Direction = Bootstrap.OrderDirection.OrderDirectionSell) ∧
        m.OfferCoin.amount ≠ 0 ∧
        m.OfferCoin.denom = m.RemainingOfferCoin.denom ∧
        0 < m.Price.toRat ∧ m.Status.IsValid = true) := by
  refine ⟨by decide, by decide, by decide, fun decode m h => ?_⟩
  obtain ⟨h1, h2, h3, h4, h5, h6, h7, h8⟩ := Bootstrap.Order.Validate_sound decode m h
  exact ⟨h1, h2, h3, h4, by simpa [Coin.IsZero] using h5, h6, h7, h8⟩

/-! ## Validation of bootstrap pools -/

/-- The inner loop returns no error only if the stage overlaps none of the later
stages. -/
theorem Bootstrap.overlapLoop_none (f : Bootstrap.DateRangesOverlapFn) (s : Bootstrap.Stage) :
    ∀ (rest : List Bootstrap.Stage), Bootstrap.overlapLoop f s rest = none →
      ∀ so ∈ rest, f s.StartTime s.EndTime so.StartTime so.EndTime = false := by
  intro rest
  induction rest with
  | nil => intro _ so hso; cases hso
  | cons a rest ih =>
    intro h so hso
    unfold Bootstrap.overlapLoop at h
    split at h
    · cases h
    · rename_i hf
      rcases List.mem_cons.mp hso with rfl | hmem
      · simpa using hf
      · exact ih h so hmem

/-- The outer loop returns no error only if every stage ends after its start, has a
duration within the limits, and overlaps no later stage. -/
theorem Bootstrap.stagesLoop_none (limits : Bootstrap.StageLimits)
    (f : Bootstrap.DateRangesOverlapFn) :
    ∀ (l : List Bootstrap.Stage), Bootstrap.stagesLoop limits f l = none →
      (∀ s ∈ l, s.EndTime.After s.StartTime = true ∧
        limits.MinStageDuration ≤ s.EndTime.Sub s.StartTime ∧
        s.EndTime.Sub s.StartTime ≤ limits.MaxStageDuration) ∧
      List.Pairwise
        (fun s so => f s.StartTime s.EndTime so.StartTime so.EndTime = false) l := by
  intro l
  induction l with
  | nil => intro _; exact ⟨fun s hs => (by cases hs), List.Pairwise.nil⟩
  | cons a rest ih =>
    intro h
    unfold Bootstrap.stagesLoop at h
    split at h
    · cases h
    rename_i hdur
    split at h
    · cases h
    rename_i hafter
    split at h
    · cases h
    rename_i hover
    obtain ⟨ih1, ih2⟩ := ih h
    have hdur2 := not_or.mp hdur
    refine ⟨fun s hs => ?_, List.Pairwise.cons (Bootstrap.overlapLoop_none f a rest hover) ih2⟩
    rcases List.mem_cons.mp hs with rfl | hmem
    · exact ⟨by simpa using hafter, not_lt.mp hdur2.1, not_lt.mp hdur2.2⟩
    · exact ih1 s hmem

/-- C13. For every `BootstrapPool` that `Validate` accepts: the pair id is not 0; the
minimum price, when set, is positive; the maximum price, when set, is positive; when
both are set the maximum is greater than the minimum; the number of stages
(`numOfStages`, which is the length of `Stages` below `2^32` stages) lies between
`MinNumOfStages` and `MaxNumOfStages`; every stage ends after its start and has a
duration between `MinStageDuration` and `MaxStageDuration`; for all indices `i < j`
the periods of stage `i` and stage `j` do not overlap; and the four fee rates are
non-negative. -/
theorem BootstrapPool_Validate_sound (decode : String → Except Error AccAddress)
    (limits : Bootstrap.StageLimits) (DateRangesOverlap : Bootstrap.DateRangesOverlapFn)
    (m : Bootstrap.BootstrapPool)
    (h : m.Validate decode limits DateRangesOverlap = none) :
    m.PairId ≠ 0 ∧
    (∀ p, m.MinPrice = some p → 0 < p.toRat) ∧
    (∀ p, m.MaxPrice = some p → 0 < p.toRat) ∧
    (∀ lo hi, m.MinPrice = some lo → m.MaxPrice = some hi → lo.toRat < hi.toRat) ∧
    (limits.MinNumOfStages ≤ m.numOfStages ∧ m.numOfStages ≤ limits.MaxNumOfStages) ∧
    (m.Stages.length < 2 ^ 32 →
      limits.MinNumOfStages ≤ m.Stages.length ∧ m.Stages.length ≤ limits.MaxNumOfStages) ∧
    (∀ s ∈ m.Stages, s.EndTime.After s.StartTime = true ∧
      limits.MinStageDuration ≤ s.EndTime.Sub s.StartTime ∧
      s.EndTime.Sub s.StartTime ≤ limits.MaxStageDuration) ∧
    (∀ (i j : Nat) (hij : i < j) (hj : j < m.Stages.length),
      DateRangesOverlap (m.Stages.get ⟨i, lt_trans hij hj⟩).StartTime
        (m.Stages.get ⟨i, lt_trans hij hj⟩).EndTime
        (m.Stages.get ⟨j, hj⟩).StartTime (m.Stages.get ⟨j, hj⟩).EndTime = false) ∧
    0 ≤ m.CreationFeeRate.toRat ∧ 0 ≤ m.ProtocolFeeRate.toRat ∧
    0 ≤ m.InitialTradingFeeRate.toRat ∧ 0 ≤ m.TradingFeeRate.toRat := by
  unfold Bootstrap.BootstrapPool.Validate at h
  split at h
  · cases h
  split at h
  · cases h
  rename_i hprices
  split at h
  · cases h
  rename_i hpair
  split at h
  · cases h
  rename_i hnum
  split at h
  · cases h
  rename_i hstages
  have hnum2 := not_or.mp hnum
  have hnumOf : limits.MinNumOfStages ≤ m.numOfStages ∧
      m.numOfStages ≤ limits.MaxNumOfStages := ⟨not_lt.mp hnum2.1, not_lt.mp hnum2.2⟩
  obtain ⟨hst1, hst2⟩ := Bootstrap.stagesLoop_none limits DateRangesOverlap m.Stages hstages
  -- the prices
  unfold Bootstrap.BootstrapPool.validatePrices at hprices
  split at hprices
  · cases hprices
  rename_i hp1
  split at hprices
  · cases hprices
  rename_i hp2
  split at hprices
  · cases hprices
  rename_i hp3
  -- the fee rates
  unfold Bootstrap.BootstrapPool.validateFeeRates at h
  split at h
  · cases h
  rename_i hf1
  split at h
  · cases h
  rename_i hf2
  split at h
  · cases h
  rename_i hf3
  split at h
  · cases h
  rename_i hf4
  refine ⟨hpair, ?_, ?_, ?_, hnumOf, ?_, hst1, ?_, ?_, ?_, ?_, ?_⟩
  · intro p hp
    rw [hp] at hp1
    rw [Dec.zero_lt_toRat_iff]
    simpa [Dec.IsPositive] using hp1
  · intro p hp
    rw [hp] at hp2
    rw [Dec.zero_lt_toRat_iff]
    simpa [Dec.IsPositive] using hp2
  · intro lo hi hlo hhi
    rw [hlo, hhi] at hp3
    rw [Dec.toRat_lt_iff]
    simpa [Dec.LTE] using hp3
  · intro hlen
    have e : m.numOfStages = m.Stages.length := by
      unfold Bootstrap.BootstrapPool.numOfStages
      exact Nat.mod_eq_of_lt hlen
    rw [e] at hnumOf
    exact hnumOf
  · intro i j hij hj
    exact List.pairwise_iff_get.mp hst2 ⟨i, lt_trans hij hj⟩ ⟨j, hj⟩ hij
  · rw [Dec.zero_le_toRat_iff]; simpa [Dec.IsNegative] using hf1
  · rw [Dec.zero_le_toRat_iff]; simpa [Dec.IsNegative] using hf2
  · rw [Dec.zero_le_toRat_iff]; simpa [Dec.IsNegative] using hf3
  · rw [Dec.zero_le_toRat_iff]; simpa [Dec.IsNegative] using hf4

/-- The pool `examplePool` is accepted under `exampleLimits`, and
`BootstrapPool_Validate_sound` gives that its two stages lie within the limits. -/
theorem BootstrapPool_Validate_sound_witness :
    Bootstrap.examplePool.Validate exampleDecode Bootstrap.exampleLimits
      Bootstrap.exampleDateRangesOverlap = none ∧
    Bootstrap.examplePool.PairId ≠ 0 ∧
    (Bootstrap.exampleLimits.MinNumOfStages ≤ Bootstrap.examplePool.numOfStages ∧
      Bootstrap.examplePool.numOfStages ≤ Bootstrap.exampleLimits.MaxNumOfStages) :=
  ⟨by decide,
    (BootstrapPool_Validate_sound exampleDecode Bootstrap.exampleLimits
      Bootstrap.exampleDateRangesOverlap Bootstrap.examplePool (by decide)).1,
    (BootstrapPool_Validate_sound exampleDecode Bootstrap.exampleLimits
      Bootstrap.exampleDateRangesOverlap Bootstrap.examplePool (by decide)).2.2.2.2.1⟩

end Crescent
